import Mathlib

/-!
Verification development for the medextract-ai hybrid PDF extraction pipeline.

Shallow embedding of:
  * `src/regex_extractor.py`  — deterministic field extraction (`extract_with_regex`,
    `count_regex_fields`), including a small executable model of the Python `re`
    pattern subset these patterns use;
  * `src/validator.py`        — `MASTER_COLUMNS`, numeric coercion, embedded–flag
    splitting, `validate_and_clean`;
  * `src/batch_processor.py`  — merge engine (`_merge_into_patient`), null-field
    pruning, chunk building, Phase-1 per-page routing and the Phase-2 chunked
    remote-call loop of `_process_single_file`;
  * `src/pdf_processor.py`    — per-page classification (`detect_graph_page`,
    the Pass-1 page construction) as far as it is needed for routing;
  * `src/ocr_extractor.py`    — confidence computation of `_ocr_with_tesseract`
    and the failure behaviour of `ocr_page_image`.

Machine floats of the source are modelled by `ℚ`; the numeric literals the
pipeline actually parses ("12.6", "8200", …) are exact decimals, so no claim
below depends on binary rounding of Python floats.  External effects (the
OpenAI HTTP call, Tesseract, pdf rendering) are modelled as oracle inputs.
-/

set_option maxHeartbeats 2000000
set_option maxRecDepth 100000

namespace MedExtract

/-! ## Basic string helpers (Python `str` semantics on ASCII data) -/

/-- Python `\s` class: space, tab, newline, carriage return, form feed, vertical tab. -/
def isWsC (c : Char) : Bool :=
  c == ' ' || c == '\t' || c == '\n' || c == '\r' || c == '\x0b' || c == '\x0c'

def isDigitC (c : Char) : Bool := c.isDigit

/-- Python `\w` class restricted to ASCII: letters, digits, underscore. -/
def isWordC (c : Char) : Bool := c.isAlphanum || c == '_'

def lowerC (c : Char) : Char := c.toLower
def upperC (c : Char) : Char := c.toUpper

/-- Python `str.strip()` on a char list. -/
def stripChars (cs : List Char) : List Char :=
  ((cs.dropWhile isWsC).reverse.dropWhile isWsC).reverse

def stripS (s : String) : String := String.mk (stripChars s.data)

def upperS (s : String) : String := String.mk (s.data.map upperC)

def lowerS (s : String) : String := String.mk (s.data.map lowerC)

/-- `startsWithChars needle hay`: `needle` is a leading run of `hay`. -/
def startsWithChars : List Char → List Char → Bool
  | [], _ => true
  | _ :: _, [] => false
  | a :: as, b :: bs => a == b && startsWithChars as bs

/-- Python `needle in hay` substring test. -/
def containsSub : List Char → List Char → Bool
  | hay, needle =>
    startsWithChars needle hay ||
      match hay with
      | [] => false
      | _ :: t => containsSub t needle

def containsSubS (hay needle : String) : Bool := containsSub hay.data needle.data

/-- Python `s.endswith(suf)` (executable; `String.endsWith` of core does not
reduce under `decide`). -/
def endsWithS (s suf : String) : Bool :=
  startsWithChars suf.data.reverse s.data.reverse

/-! ## Values

Python dict values in the pipeline are floats, strings, `None`, or (from the
remote tier) a nested `{value:…, flag:…}` object.  `None` is `Option.none` at
the dict layer; the others are `Val`.  Floats are modelled by `ℚ`. -/

/-- A scalar JSON payload (the remote tier nests only scalars). -/
inductive Prim where
  | num (q : ℚ)
  | str (s : String)
deriving DecidableEq, Repr

inductive Val where
  | num (q : ℚ)
  | str (s : String)
  /-- a nested `{value:…, flag:…}` object with a `value` key present -/
  | pair (v : Option Prim) (fl : Option Prim)
deriving DecidableEq, Repr

def Prim.toVal : Prim → Val
  | .num q => .num q
  | .str s => .str s

/-- Python `str(x)` as used by the merge engine.  Narrative values in practice
are strings; `str()` of a float or dict is not modelled faithfully (binary
float formatting), which no claim depends on. -/
def pyStr : Val → String
  | .str s => s
  | .num q => toString q
  | .pair _ _ => "dict"

/-- Python truthiness of a possibly-missing dict value. -/
def pyTruthy : Option Val → Bool
  | none => false
  | some (.num q) => q != 0
  | some (.str s) => s != ""
  | some (.pair _ _) => true

/-! ## Dicts (insertion-ordered, as in Python) -/

abbrev Dict := List (String × Option Val)

/-- Python `d.get(k)` (missing key ↦ `None`). -/
def dget (d : Dict) (k : String) : Option Val :=
  match d.find? (fun e => e.1 == k) with
  | some e => e.2
  | none => none

/-- Python `d[k] = v`: replace in place if the key exists, else append. -/
def dset (d : Dict) (k : String) (v : Option Val) : Dict :=
  if d.any (fun e => e.1 == k) then
    d.map (fun e => if e.1 == k then (k, v) else e)
  else d ++ [(k, v)]

/-- Python `k in d`. -/
def hasKey (d : Dict) (k : String) : Bool := d.any (fun e => e.1 == k)

def dkeys (d : Dict) : List String := d.map (·.1)

/-! ## A tiny model of the `re` pattern subset used by `regex_extractor.py`

Alternation is ordered, quantifiers are greedy unless noted, `search` returns
the leftmost match — exactly the Python semantics the source relies on. -/

inductive RE where
  | eps
  | cls (p : Char → Bool)
  /-- case-insensitive literal; stored lower-case. -/
  | lit (s : List Char)
  /-- case-sensitive literal. -/
  | litCS (s : List Char)
  | seq (a b : RE)
  | alt (a b : RE)
  /-- greedy `?` -/
  | opt (a : RE)
  /-- greedy `*` over a character class -/
  | starCls (p : Char → Bool)
  /-- greedy `+` over a character class -/
  | plusCls (p : Char → Bool)
  /-- `{lo,hi}` over a character class; `lzy` selects lazy matching -/
  | repCls (p : Char → Bool) (lo hi : Nat) (lzy : Bool)
  /-- capturing group `i` -/
  | grp (i : Nat) (a : RE)
  /-- lookahead `(?=a)` -/
  | look (a : RE)
  /-- word boundary `\b` -/
  | wb
  /-- `$` in MULTILINE mode: end of text or before a newline -/
  | eol

abbrev Caps := List (Nat × List Char)

/-- One way a pattern can match a position: consumed chars, rest, captures.
Results are ordered by the backtracking priority of `re`. -/
abbrev RunRes := List (List Char × List Char × Caps)

def dropLitCI : List Char → List Char → Option (List Char × List Char)
  | [], cs => some ([], cs)
  | _ :: _, [] => none
  | p :: ps, c :: cs =>
    if lowerC c == p then
      match dropLitCI ps cs with
      | some (tk, rest) => some (c :: tk, rest)
      | none => none
    else none

def dropLitCS : List Char → List Char → Option (List Char × List Char)
  | [], cs => some ([], cs)
  | _ :: _, [] => none
  | p :: ps, c :: cs =>
    if c == p then
      match dropLitCS ps cs with
      | some (tk, rest) => some (c :: tk, rest)
      | none => none
    else none

def lastCh (consumed : List Char) (prev : Option Char) : Option Char :=
  match consumed.getLast? with
  | some c => some c
  | none => prev

/-- All splits a class quantifier admits, in backtracking priority order. -/
def clsTakes (p : Char → Bool) (cs : List Char) (lo hi : Nat) (lzy : Bool) : RunRes :=
  let m := (cs.takeWhile p).length
  let u := min hi m
  if u < lo then []
  else
    ((List.range (u + 1 - lo)).map (fun j => if lzy then lo + j else u - j)).map
      (fun k => (cs.take k, cs.drop k, []))

def reRun : RE → Option Char → List Char → RunRes
  | .eps, _, cs => [([], cs, [])]
  | .cls p, _, cs =>
    match cs with
    | [] => []
    | c :: rest => if p c then [([c], rest, [])] else []
  | .lit s, _, cs =>
    match dropLitCI s cs with
    | some (tk, rest) => [(tk, rest, [])]
    | none => []
  | .litCS s, _, cs =>
    match dropLitCS s cs with
    | some (tk, rest) => [(tk, rest, [])]
    | none => []
  | .seq a b, prev, cs =>
    (reRun a prev cs).flatMap fun r1 =>
      (reRun b (lastCh r1.1 prev) r1.2.1).map fun r2 =>
        (r1.1 ++ r2.1, r2.2.1, r1.2.2 ++ r2.2.2)
  | .alt a b, prev, cs => reRun a prev cs ++ reRun b prev cs
  | .opt a, prev, cs => reRun a prev cs ++ [([], cs, [])]
  | .starCls p, _, cs => clsTakes p cs 0 cs.length false
  | .plusCls p, _, cs => clsTakes p cs 1 cs.length false
  | .repCls p lo hi lzy, _, cs => clsTakes p cs lo hi lzy
  | .grp i a, prev, cs =>
    (reRun a prev cs).map fun r => (r.1, r.2.1, r.2.2 ++ [(i, r.1)])
  | .look a, prev, cs =>
    if (reRun a prev cs).isEmpty then [] else [([], cs, [])]
  | .wb, prev, cs =>
    let w1 := match prev with | some c => isWordC c | none => false
    let w2 := match cs with | c :: _ => isWordC c | [] => false
    if w1 != w2 then [([], cs, [])] else []
  | .eol, _, cs =>
    match cs with
    | [] => [([], cs, [])]
    | c :: _ => if c == '\n' then [([], cs, [])] else []

/-- `re.search` scanning from position `pos`; returns `(start, stop, captures)`. -/
def searchFrom (re : RE) (prev : Option Char) (cs : List Char) (pos : Nat) :
    Option (Nat × Nat × Caps) :=
  match reRun re prev cs with
  | (c, _, caps) :: _ => some (pos, pos + c.length, caps)
  | [] =>
    match cs with
    | [] => none
    | c :: rest => searchFrom re (some c) rest (pos + 1)

def reSearch (re : RE) (cs : List Char) : Option (Nat × Nat × Caps) :=
  searchFrom re none cs 0

/-- `re.fullmatch`: a match at position 0 consuming the whole input. -/
def reFullmatch (re : RE) (cs : List Char) : Option Caps :=
  match (reRun re none cs).filter (fun r => r.2.1.isEmpty) with
  | (_, _, caps) :: _ => some caps
  | [] => none

def capGet (caps : Caps) (i : Nat) : Option (List Char) :=
  match caps.find? (fun e => e.1 == i) with
  | some e => some e.2
  | none => none

/-! Pattern-building helpers mirroring the concrete regex syntax. -/

def reStr (s : String) : RE := .lit (s.data.map lowerC)
def reStrCS (s : String) : RE := .litCS s.data

def altL : List RE → RE
  | [] => .cls (fun _ => false)
  | [r] => r
  | r :: rs => .alt r (altL rs)

def seqL : List RE → RE
  | [] => .eps
  | [r] => r
  | r :: rs => .seq r (seqL rs)

def wsStar : RE := .starCls isWsC
def wsPlus : RE := .plusCls isWsC
def digitsP : RE := .plusCls isDigitC

/-- `\s*[:\-]?\s*` — the separator that follows every field label. -/
def sepRE : RE := seqL [wsStar, .opt (.cls (fun c => c == ':' || c == '-')), wsStar]

/-- `(\d+(?:\.\d+)?)` as group 1. -/
def numberGrp : RE := .grp 1 (.seq digitsP (.opt (.seq (reStrCS ".") digitsP)))

/-! ## `regex_extractor.py` — the field patterns

Each Lean pattern below transcribes one compiled pattern of the source, in
source order.  All are `re.IGNORECASE` unless noted (`_NAME_PATTERN` is
case-sensitive). -/

def optS : RE := .opt (reStr "s")
def optDot : RE := .opt (reStrCS ".")
/-- `(?:\s+Count)?` -/
def optCount : RE := .opt (.seq wsPlus (reStr "Count"))
/-- label `\s*[:\-]?\s*` number-group -/
def numPat (label : RE) : RE := seqL [label, sepRE, numberGrp]

def haemoglobinLbl : RE :=
  altL [reStr "Haemoglobin", reStr "Hemoglobin", reStr "HAEMOGLOBIN",
        .seq (reStr "HB") (.opt (reStrCS "%")), reStr "Hb"]

def rbcLbl : RE :=
  altL [.seq (reStr "RBC") optCount,
        seqL [reStr "R", optDot, reStr "B", optDot, reStr "C", optDot, optCount],
        seqL [reStr "Red", wsPlus, reStr "Blood", wsPlus, reStr "Cell", optCount]]

def hctLbl : RE :=
  altL [reStr "Haematocrit", reStr "Hematocrit", reStr "HCT", reStr "PCV",
        seqL [reStr "P", optDot, reStr "C", optDot, reStr "V", optDot]]

def mcvLbl : RE := reStr "MCV"
def mchLbl : RE := seqL [.wb, reStr "MCH", .wb]
def mchcLbl : RE := reStr "MCHC"
def rdwCvLbl : RE :=
  seqL [reStr "RDW", .opt (.cls (fun c => c == '-' || isWsC c)), reStr "CV"]
def rdwSdLbl : RE :=
  seqL [reStr "RDW", .opt (.cls (fun c => c == '-' || isWsC c)), reStr "SD"]

def tlcLbl : RE :=
  altL [seqL [reStr "Total", wsPlus,
              altL [reStr "Leucocyte", reStr "Leukocyte", reStr "WBC"],
              wsPlus, reStr "Count"],
        reStr "TLC",
        seqL [reStr "Total", wsPlus, reStr "W", optDot, reStr "B", optDot,
              reStr "C", optDot, optCount],
        seqL [reStr "TOTAL", wsPlus, reStr "WBC", .opt (.seq wsPlus (reStr "COUNT"))]]

def neutPctLbl : RE :=
  altL [.seq (reStr "Neutrophil") optS, .seq (reStr "NEUTROPHIL") optS,
        .seq (reStr "Neut") (.opt (reStrCS "%"))]
def lymphPctLbl : RE :=
  altL [.seq (reStr "Lymphocyte") optS, .seq (reStr "LYMPHOCYTE") optS,
        .seq (reStr "Lymph") (.opt (reStrCS "%"))]
def eosPctLbl : RE :=
  altL [.seq (reStr "Eosinophil") optS, .seq (reStr "EOSINOPHIL") optS,
        .seq (reStr "Eos") (.opt (reStrCS "%"))]
def monoPctLbl : RE :=
  altL [.seq (reStr "Monocyte") optS, .seq (reStr "MONOCYTE") optS,
        .seq (reStr "Mono") (.opt (reStrCS "%"))]
def basoPctLbl : RE :=
  altL [.seq (reStr "Basophil") optS, .seq (reStr "BASOPHIL") optS,
        .seq (reStr "Baso") (.opt (reStrCS "%"))]

/-- `(?:Absolute|Abs\.?)` -/
def absTail : RE := altL [reStr "Absolute", .seq (reStr "Abs") optDot]
def neutAbsLbl : RE := seqL [reStr "Neutrophil", optS, wsPlus, absTail]
def lymphAbsLbl : RE := seqL [reStr "Lymphocyte", optS, wsPlus, absTail]
def eosAbsLbl : RE := seqL [reStr "Eosinophil", optS, wsPlus, absTail]
def monoAbsLbl : RE := seqL [reStr "Monocyte", optS, wsPlus, absTail]
def basoAbsLbl : RE := seqL [reStr "Basophil", optS, wsPlus, absTail]

def plateletLbl : RE :=
  altL [.seq (reStr "Platelet") optCount, reStr "PLT", .seq (reStr "Plt") optCount,
        .seq (reStr "PLATELET") (.opt (.seq wsPlus (reStr "COUNT")))]

def mpvLbl : RE := seqL [.wb, reStr "MPV", .wb]

def esrLbl : RE :=
  altL [seqL [reStr "E", optDot, reStr "S", optDot, reStr "R", optDot,
              .opt (reStrCS "*")],
        seqL [reStr "Erythrocyte", wsPlus, reStr "Sedimentation", wsPlus,
              reStr "Rate",
              .opt (seqL [wsStar, reStrCS "(", reStr "ESR", reStrCS ")"])]]

def bsrLbl : RE :=
  altL [seqL [reStr "Blood", wsPlus, altL [reStr "Sugar", reStr "Glucose"],
              wsPlus, reStr "Random"],
        seqL [reStr "Random", wsPlus, reStr "Blood", wsPlus,
              altL [reStr "Sugar", reStr "Glucose"]],
        reStr "BSR", reStr "RBS",
        seqL [reStr "BLOOD", wsPlus, reStr "GLUCOSE", wsPlus, reStr "RANDOM"]]

def creatLbl : RE :=
  altL [seqL [reStr "S", optDot, wsStar, reStr "Creatinine"],
        seqL [reStr "Serum", wsPlus, reStr "Creatinine"],
        reStr "CREATININE"]

def sgotLbl : RE :=
  altL [.seq (reStr "SGOT") (.opt (reStr "/AST")),
        seqL [reStr "S", optDot, reStr "G", optDot, reStr "O", optDot,
              reStr "T", optDot,
              .opt (seqL [.cls (fun c => c == ',' || c == '/'), wsStar, reStr "AST"])],
        reStr "AST"]

def sgptLbl : RE :=
  altL [.seq (reStr "SGPT") (.opt (reStr "/ALT")),
        seqL [reStr "S", optDot, reStr "G", optDot, reStr "P", optDot,
              reStr "T", optDot,
              .opt (seqL [.cls (fun c => c == ',' || c == '/'), wsStar, reStr "ALT"])],
        reStr "ALT"]

/-- `_NUMERIC_PATTERNS`, in source order. -/
def numericPatterns : List (RE × String) :=
  [(numPat haemoglobinLbl, "Haemoglobin"),
   (numPat rbcLbl, "Red_Blood_Cell_Count"),
   (numPat hctLbl, "Hct"),
   (numPat mcvLbl, "MCV"),
   (numPat mchLbl, "MCH"),
   (numPat mchcLbl, "MCHC"),
   (numPat rdwCvLbl, "RDW_CV"),
   (numPat rdwSdLbl, "RDW_SD"),
   (numPat tlcLbl, "TLC"),
   (numPat neutPctLbl, "Neutrophil_Percent"),
   (numPat lymphPctLbl, "Lymphocyte_Percent"),
   (numPat eosPctLbl, "Eosinophils_Percent"),
   (numPat monoPctLbl, "Monocytes_Percent"),
   (numPat basoPctLbl, "Basophils_Percent"),
   (numPat neutAbsLbl, "Neutrophils_Absolute"),
   (numPat lymphAbsLbl, "Lymphocytes_Absolute"),
   (numPat eosAbsLbl, "Eosinophils_Absolute"),
   (numPat monoAbsLbl, "Monocytes_Absolute"),
   (numPat basoAbsLbl, "Basophils_Absolute"),
   (numPat plateletLbl, "Platelet_Count"),
   (numPat mpvLbl, "MPV"),
   (numPat esrLbl, "ESR"),
   (numPat bsrLbl, "Blood_Sugar_Random"),
   (numPat creatLbl, "Serum_Creatinine"),
   (numPat sgotLbl, "SGOT_AST"),
   (numPat sgptLbl, "SGPT_ALT")]

/-- `(?:Age)\s*[:\-]?\s*(\d+)\s*(?:Y(?:rs?|ears?)?)?` -/
def agePat : RE :=
  seqL [reStr "Age", sepRE, .grp 1 digitsP, wsStar,
        .opt (.seq (reStr "Y")
          (.opt (altL [.seq (reStr "r") optS, .seq (reStr "ear") optS])))]

def heightPat : RE :=
  seqL [altL [reStr "Height", .seq (reStr "Ht") optDot], sepRE, numberGrp]
def weightPat : RE :=
  seqL [altL [reStr "Weight", .seq (reStr "Wt") optDot], sepRE, numberGrp]
def bmiPat : RE := seqL [reStr "BMI", sepRE, numberGrp]
def pulsePat : RE :=
  seqL [altL [.seq (reStr "Pulse") (.opt (.seq wsPlus (reStr "Rate"))), reStr "PR"],
        sepRE, .grp 1 digitsP]

/-- `_PATIENT_PATTERNS`, in source order. -/
def patientPatterns : List (RE × String) :=
  [(agePat, "Age"), (heightPat, "Height"), (weightPat, "Weight"),
   (bmiPat, "BMI"), (pulsePat, "Pulse")]

/-- `\d{2,3}` -/
def d23 : RE := .repCls isDigitC 2 3 false

/-- `(?:BP|Blood\s+Pressure)\s*[:\-]?\s*(\d{2,3}\s*/\s*\d{2,3})` -/
def bpPat : RE :=
  seqL [altL [reStr "BP", seqL [reStr "Blood", wsPlus, reStr "Pressure"]], sepRE,
        .grp 1 (seqL [d23, wsStar, reStrCS "/", wsStar, d23])]

def isUpperAZ (c : Char) : Bool := 'A' ≤ c && c ≤ 'Z'
def isAsciiLetter (c : Char) : Bool := ('A' ≤ c && c ≤ 'Z') || ('a' ≤ c && c ≤ 'z')
/-- `[A-Za-z\s\.]` -/
def nameCls (c : Char) : Bool := isAsciiLetter c || isWsC c || c == '.'

/-- `_NAME_PATTERN` (case-sensitive, MULTILINE). -/
def namePat : RE :=
  seqL [altL [seqL [reStrCS "Patient", wsPlus, reStrCS "Name"],
              seqL [reStrCS "Name", wsPlus, reStrCS "of", wsPlus, reStrCS "Patient"],
              reStrCS "Patient", reStrCS "Name"],
        wsStar, .cls (fun c => c == ':' || c == '-'), wsStar,
        .grp 1 (.seq (.cls isUpperAZ) (.repCls nameCls 2 50 true)),
        .look (altL [reStrCS "\n", reStrCS "\r", .eol,
                     seqL [.cls isWsC, .cls isWsC, wsStar],
                     reStrCS "Age", reStrCS "DOB", reStrCS "Sex", reStrCS "Gender",
                     reStrCS "Mr.", reStrCS "Mrs."])]

def genderPat : RE :=
  seqL [altL [reStr "Gender", reStr "Sex"], sepRE,
        .grp 1 (altL [reStr "Male", reStr "Female", reStr "M", reStr "F",
                      reStr "MALE", reStr "FEMALE"])]

def bgPat : RE :=
  seqL [altL [seqL [reStr "Blood", wsPlus, reStr "Group",
                    .opt (seqL [wsStar, reStrCS "(", reStr "ABO", reStrCS ")"])],
              seqL [reStr "ABO", wsPlus, reStr "Group"],
              seqL [reStr "BLOOD", wsPlus, reStr "GROUP"]],
        sepRE,
        .grp 1 (altL [reStr "AB", reStr "A", reStr "B", reStr "O"]),
        .opt (seqL [wsStar,
                    .grp 2 (altL [reStr "Positive", reStrCS "+",
                                  reStr "Negative", reStrCS "-"])])]

def rhPat : RE :=
  seqL [altL [.seq (reStr "Rh")
                (.opt (.seq wsPlus (altL [reStr "Factor", reStr "Type"]))),
              reStr "RHESUS"],
        sepRE,
        .grp 1 (altL [reStr "Positive", reStrCS "+", reStr "Negative", reStrCS "-"])]

/-- `[A-Za-z0-9\-_/]` -/
def idCls (c : Char) : Bool :=
  isAsciiLetter c || c.isDigit || c == '-' || c == '_' || c == '/'

def empPat : RE :=
  seqL [altL [seqL [reStr "Emp", .opt (reStr "loyee"),
                    .opt (seqL [wsPlus,
                                altL [reStr "Code", reStr "ID",
                                      .seq (reStr "No") optDot]])],
              .seq (reStr "EMP")
                (.opt (altL [reStr "CODE", reStr "ID", reStr "NO"]))],
        sepRE, .grp 1 (.repCls idCls 2 20 false)]

def uhidPat : RE :=
  seqL [altL [.seq (reStr "UHID")
                (.opt (seqL [wsStar, altL [.seq (reStr "No") optDot,
                                           reStr "Number"]])),
              seqL [reStr "U", optDot, reStr "H", optDot, reStr "I", optDot,
                    reStr "D", optDot]],
        sepRE, .grp 1 (.repCls idCls 2 20 false)]

/-- `_INLINE_FLAG = \b(\d+(?:\.\d+)?)\s+(H|L|High|Low|↑|↓)\b` -/
def inlineFlagPat : RE :=
  seqL [.wb, .grp 1 (.seq digitsP (.opt (.seq (reStrCS ".") digitsP))), wsPlus,
        .grp 2 (altL [reStr "H", reStr "L", reStr "High", reStr "Low",
                      reStrCS "↑", reStrCS "↓"]),
        .wb]

/-- `(H|L|High|Low|↑|↓)` — the standalone next-line flag, used with fullmatch. -/
def standaloneFlag : RE :=
  altL [reStr "H", reStr "L", reStr "High", reStr "Low", reStrCS "↑", reStrCS "↓"]

/-! ## `regex_extractor.py` — extraction functions -/

/-- `_normalize_flag` -/
def normalizeFlag (raw : String) : Option String :=
  if raw = "" then none
  else
    let u := upperS (stripS raw)
    if u = "H" ∨ u = "HIGH" ∨ u = "↑" then some "HIGH"
    else if u = "L" ∨ u = "LOW" ∨ u = "↓" then some "LOW"
    else none

/-- `_normalize_rh` -/
def normalizeRh (raw : String) : Option String :=
  if raw = "" then none
  else
    let u := upperS (stripS raw)
    if u = "+" ∨ u = "POSITIVE" ∨ u = "POS" then some "Positive"
    else if u = "-" ∨ u = "NEGATIVE" ∨ u = "NEG" then some "Negative"
    else none

/-- `_normalize_blood_group` -/
def normalizeBloodGroup (raw : String) : Option String :=
  if raw = "" then none
  else
    let u := upperS (stripS raw)
    if u = "A" ∨ u = "B" ∨ u = "AB" ∨ u = "O" then some u else none

def natOfDigits (cs : List Char) : Nat :=
  cs.foldl (fun a c => 10 * a + (c.toNat - 48)) 0

/-- Python `float()` on a regex capture of shape `\d+(\.\d+)?` (or `\d+`);
exact, since such literals are decimal. -/
def parseDecimal? (cs : List Char) : Option ℚ :=
  let intPart := cs.takeWhile isDigitC
  let rest := cs.drop intPart.length
  if intPart.isEmpty then none
  else
    match rest with
    | [] => some (natOfDigits intPart)
    | '.' :: frac =>
      if !frac.isEmpty && frac.all isDigitC then
        some ((natOfDigits intPart : ℚ) + (natOfDigits frac : ℚ) / ((10 : ℚ) ^ frac.length))
      else none
    | _ => none

/-- `text.rfind("\n", 0, stop) + 1` (`-1 + 1 = 0` when absent). -/
def lineStartAt (cs : List Char) (stop : Nat) : Nat :=
  match ((List.range stop).filter (fun i => cs.get? i == some '\n')).getLast? with
  | some i => i + 1
  | none => 0

/-- `text.find("\n", start)`, with `-1` mapped to `len(text)`. -/
def findNlFrom (cs : List Char) (start : Nat) : Nat :=
  match (((List.range cs.length).drop start).filter
           (fun i => cs.get? i == some '\n')).head? with
  | some i => i
  | none => cs.length

/-- `text[a:b]` -/
def slice (cs : List Char) (a b : Nat) : List Char := (cs.take b).drop a

/-- `_extract_value_and_flag` -/
def extractValueAndFlag (text : List Char) (pat : RE) : Option ℚ × Option String :=
  match reSearch pat text with
  | none => (none, none)
  | some (mStart, mEnd, caps) =>
    match capGet caps 1 with
    | none => (none, none)
    | some raw =>
      match parseDecimal? raw with
      | none => (none, none)
      | some value =>
        let lineStart := lineStartAt text mStart
        let lineEnd := findNlFrom text mEnd
        let matchedLine := slice text lineStart lineEnd
        match reSearch inlineFlagPat matchedLine with
        | some (_, _, fcaps) =>
          (some value,
            match capGet fcaps 2 with
            | some fl => normalizeFlag (String.mk fl)
            | none => none)
        | none =>
          let nextLineEnd := findNlFrom text (lineEnd + 1)
          let nextLine := stripChars (slice text lineEnd nextLineEnd)
          match reFullmatch (.grp 1 standaloneFlag) nextLine with
          | some caps2 =>
            (some value,
              match capGet caps2 1 with
              | some fl => normalizeFlag (String.mk fl)
              | none => none)
          | none => (some value, none)

/-- `extract_with_regex`.

The Python builds its dict by successive assignment; every key is assigned
once, except `Rh_Type`, whose conditional second assignment (standalone Rh
pattern) replaces the value in place without moving the key — folded into
`rhFinal` below. -/
def extractWithRegex (text : List Char) : Dict :=
  let numericPart : Dict :=
    numericPatterns.flatMap (fun pf =>
      let vf := extractValueAndFlag text pf.1
      [(pf.2, vf.1.map Val.num), (pf.2 ++ "_Flag", vf.2.map Val.str)])
  let patientPart : Dict :=
    patientPatterns.map (fun pf =>
      (pf.2, ((extractValueAndFlag text pf.1).1.map Val.num : Option Val)))
  let bpVal : Option Val :=
    match reSearch bpPat text with
    | some (_, _, caps) =>
      match capGet caps 1 with
      | some g => some (.str (String.mk (g.filter (fun c => c != ' '))))
      | none => none
    | none => none
  let nameVal : Option Val :=
    match reSearch namePat text with
    | some (_, _, caps) =>
      match capGet caps 1 with
      | some g =>
        let nm := stripS (String.mk g)
        if nm.length ≥ 3 ∧
            ¬(lowerS nm = "report" ∨ lowerS nm = "lab" ∨ lowerS nm = "date" ∨
              lowerS nm = "test") then
          some (.str nm)
        else none
      | none => none
    | none => none
  let genderVal : Option Val :=
    match reSearch genderPat text with
    | some (_, _, caps) =>
      match capGet caps 1 with
      | some g =>
        let gu := upperS (String.mk g)
        some (.str (if gu = "M" ∨ gu = "MALE" then "Male" else "Female"))
      | none => none
    | none => none
  let bgRh : Option Val × Option Val :=
    match reSearch bgPat text with
    | some (_, _, caps) =>
      ((match capGet caps 1 with
        | some g => (normalizeBloodGroup (String.mk g)).map Val.str
        | none => none),
       (match capGet caps 2 with
        | some g => (normalizeRh (String.mk g)).map Val.str
        | none => none))
    | none => (none, none)
  let rhFinal : Option Val :=
    match bgRh.2 with
    | some v => some v
    | none =>
      match reSearch rhPat text with
      | some (_, _, caps) =>
        match capGet caps 1 with
        | some g => (normalizeRh (String.mk g)).map Val.str
        | none => none
      | none => none
  let empVal : Option Val :=
    match reSearch empPat text with
    | some (_, _, caps) =>
      match capGet caps 1 with
      | some g => some (.str (stripS (String.mk g)))
      | none => none
    | none => none
  let uhidVal : Option Val :=
    match reSearch uhidPat text with
    | some (_, _, caps) =>
      match capGet caps 1 with
      | some g => some (.str (stripS (String.mk g)))
      | none => none
    | none => none
  numericPart ++ patientPart ++
  [("BP", bpVal), ("PatientName", nameVal), ("Gender", genderVal),
   ("Blood_Group", bgRh.1), ("Rh_Type", rhFinal),
   ("EmpCode", empVal), ("UHIDNo", uhidVal),
   ("Mobile", none), ("Remarks", none),
   ("Urine_Colour", none), ("Urine_Transparency", none), ("Urine_PH", none),
   ("Urine_Protein_Albumin", none), ("Urine_Glucose", none),
   ("Urine_Bilirubin", none), ("Urine_Blood", none), ("Urine_RBC", none),
   ("Urine_Casts", none), ("Urine_Crystals", none),
   ("Urine_Specific_Gravity", none),
   ("AUDIOMETRY", none), ("PFT", none), ("XRAY", none),
   ("Suggestion", none)]

/-- `count_regex_fields` -/
def countRegexFields (d : Dict) : Nat :=
  (d.filter (fun e => !endsWithS e.1 "_Flag" && e.2.isSome)).length

/-! ## `validator.py` -/

/-- `MASTER_COLUMNS` — the canonical field set, in source order. -/
def MASTER_COLUMNS : List String :=
  ["EmpCode", "UHIDNo", "PatientName",
   "Age", "Gender", "Height", "Weight", "BMI", "BP", "Pulse", "Mobile",
   "Blood_Sugar_Random", "Blood_Sugar_Random_Flag",
   "Blood_Group", "Rh_Type",
   "Haemoglobin", "Haemoglobin_Flag",
   "Red_Blood_Cell_Count", "Red_Blood_Cell_Count_Flag",
   "Hct", "Hct_Flag",
   "MCV", "MCV_Flag",
   "MCH", "MCH_Flag",
   "MCHC", "MCHC_Flag",
   "RDW_CV", "RDW_CV_Flag",
   "RDW_SD", "RDW_SD_Flag",
   "TLC", "TLC_Flag",
   "Neutrophil_Percent", "Neutrophil_Percent_Flag",
   "Lymphocyte_Percent", "Lymphocyte_Percent_Flag",
   "Eosinophils_Percent", "Eosinophils_Percent_Flag",
   "Monocytes_Percent", "Monocytes_Percent_Flag",
   "Basophils_Percent", "Basophils_Percent_Flag",
   "Neutrophils_Absolute",
   "Lymphocytes_Absolute",
   "Eosinophils_Absolute",
   "Monocytes_Absolute",
   "Basophils_Absolute",
   "Platelet_Count", "Platelet_Count_Flag",
   "MPV", "MPV_Flag",
   "ESR", "ESR_Flag",
   "Serum_Creatinine", "Serum_Creatinine_Flag",
   "SGOT_AST", "SGOT_AST_Flag",
   "SGPT_ALT", "SGPT_ALT_Flag",
   "Urine_Colour", "Urine_Transparency",
   "Urine_Protein_Albumin", "Urine_Glucose", "Urine_Bilirubin",
   "Urine_Blood", "Urine_Casts", "Urine_Crystals", "Urine_RBC",
   "Urine_PH", "Urine_Specific_Gravity",
   "AUDIOMETRY", "PFT", "XRAY",
   "Remarks", "Suggestion",
   "Extraction_Note",
   "Data_Quality"]

def metaCols : List String := ["Extraction_Note", "Data_Quality"]

/-- `NUMERIC_FIELDS`.  A Python `set` in the source; its iteration order is
irrelevant because the per-field updates of the coercion step are
independent, so a fixed list (source literal order) is faithful. -/
def NUMERIC_FIELDS : List String :=
  ["Age", "Height", "Weight", "BMI", "Pulse",
   "Haemoglobin", "Red_Blood_Cell_Count", "Hct",
   "MCV", "MCH", "MCHC", "RDW_CV", "RDW_SD",
   "TLC",
   "Neutrophil_Percent", "Lymphocyte_Percent",
   "Eosinophils_Percent", "Monocytes_Percent", "Basophils_Percent",
   "Neutrophils_Absolute", "Lymphocytes_Absolute",
   "Eosinophils_Absolute", "Monocytes_Absolute", "Basophils_Absolute",
   "Platelet_Count", "MPV", "ESR",
   "Blood_Sugar_Random",
   "Serum_Creatinine", "SGOT_AST", "SGPT_ALT",
   "Urine_PH", "Urine_Specific_Gravity"]

/-- `FLAG_FIELDS = {col for col in MASTER_COLUMNS if col.endswith("_Flag")}` -/
def FLAG_FIELDS : List String := MASTER_COLUMNS.filter (endsWithS · "_Flag")

/-- Python `float(s)` on a general string: optional sign, decimal mantissa,
optional exponent.  (`inf`/`nan`/underscore separators are not modelled;
no claim involves them.) -/
def parsePyFloat? (s : String) : Option ℚ :=
  let cs := stripChars s.data
  let sgn : ℚ × List Char :=
    match cs with
    | '+' :: t => (1, t)
    | '-' :: t => (-1, t)
    | _ => (1, cs)
  let intPart := sgn.2.takeWhile isDigitC
  let rest1 := sgn.2.drop intPart.length
  let mant : Option (ℚ × List Char) :=
    match rest1 with
    | '.' :: t =>
      let frac := t.takeWhile isDigitC
      let r := t.drop frac.length
      if intPart.isEmpty && frac.isEmpty then none
      else some ((natOfDigits intPart : ℚ) +
                 (natOfDigits frac : ℚ) / ((10 : ℚ) ^ frac.length), r)
    | _ =>
      if intPart.isEmpty then none
      else some ((natOfDigits intPart : ℚ), rest1)
  match mant with
  | none => none
  | some (m, rest2) =>
    match rest2 with
    | [] => some (sgn.1 * m)
    | e :: t =>
      if e == 'e' || e == 'E' then
        let esgn : ℤ × List Char :=
          match t with
          | '+' :: tt => (1, tt)
          | '-' :: tt => (-1, tt)
          | _ => (1, t)
        let ds := esgn.2.takeWhile isDigitC
        if ds.isEmpty || !(esgn.2.drop ds.length).isEmpty then none
        else some (sgn.1 * m * (10 : ℚ) ^ (esgn.1 * (natOfDigits ds : ℤ)))
      else none

/-- `_parse_embedded_flag`: the anchored pattern
`^([\d.]+)\s*(L|H|Low|High|low|high)$` (IGNORECASE) translated directly.
The greedy class `[\d.]+` always captures the maximal digit-or-dot run,
since neither `\s*` nor the flag alternation can begin with a digit or dot;
the rest must be optional whitespace followed by the flag word ending the
string. -/
def parseEmbeddedFlag (raw : String) : Option ℚ × Option String :=
  let cs := stripChars raw.data
  let numStr := cs.takeWhile (fun c => isDigitC c || c == '.')
  let rest := (cs.drop numStr.length).dropWhile isWsC
  let tokU := upperS (String.mk rest)
  if numStr.isEmpty then (none, none)
  else if tokU = "L" ∨ tokU = "LOW" then
    match parsePyFloat? (String.mk numStr) with
    | some v => (some v, some "LOW")
    | none => (none, none)
  else if tokU = "H" ∨ tokU = "HIGH" then
    match parsePyFloat? (String.mk numStr) with
    | some v => (some v, some "HIGH")
    | none => (none, none)
  else (none, none)

/-- `_coerce_numeric` (the `field_name` argument only feeds logging). -/
def coerceNumeric (value : Option Val) : Option Val × Option String :=
  match value with
  | none => (none, none)
  | some (.num q) => (some (.num q), none)
  | some (.str s) =>
    let stripped := stripS s
    if stripped = "" then (none, none)
    else
      match parseEmbeddedFlag stripped with
      | (some nv, fh) => (some (.num nv), fh)
      | (none, _) =>
        match parsePyFloat? stripped with
        | some q => (some (.num q), none)
        | none => (none, none)
  | some (.pair _ _) => (none, none)

/-- validator's `_normalize_flag` -/
def normalizeFlagV (value : Option Val) : Option Val :=
  match value with
  | none => none
  | some (.str s) =>
    let u := upperS (stripS s)
    if u = "HIGH" ∨ u = "H" then some (.str "HIGH")
    else if u = "LOW" ∨ u = "L" then some (.str "LOW")
    else none
  | some _ => none

/-- `_PLAUSIBILITY_RANGES`, in source order. -/
def PLAUSIBILITY_RANGES : List (String × ℚ × ℚ) :=
  [("Haemoglobin", 3, 25),
   ("Red_Blood_Cell_Count", 1, 10),
   ("Hct", 5, 65),
   ("MCV", 50, 130),
   ("MCH", 10, 50),
   ("MCHC", 20, 40),
   ("TLC", 1/2, 100),
   ("Platelet_Count", 10, 1500),
   ("Neutrophil_Percent", 0, 100),
   ("Lymphocyte_Percent", 0, 100),
   ("Eosinophils_Percent", 0, 60),
   ("Monocytes_Percent", 0, 30),
   ("Basophils_Percent", 0, 10),
   ("ESR", 0, 150),
   ("Blood_Sugar_Random", 20, 700),
   ("Serum_Creatinine", 1/10, 20),
   ("SGOT_AST", 5, 2000),
   ("SGPT_ALT", 5, 2000),
   ("Age", 1, 120),
   ("BMI", 10, 70),
   ("Pulse", 30, 220)]

def DIFFERENTIAL_FIELDS : List String :=
  ["Neutrophil_Percent", "Lymphocyte_Percent", "Eosinophils_Percent",
   "Monocytes_Percent", "Basophils_Percent"]

def DIFFERENTIAL_SUM_TOLERANCE : ℚ := 10

/-- Python `float(x)` on a dict value, `None` on failure. -/
def toFloat? : Option Val → Option ℚ
  | some (.num q) => some q
  | some (.str s) => parsePyFloat? s
  | _ => none

/-- `run_data_quality_checks`.  Issue message text is produced with the exact
rational printed by `toString`; the Python float formatting of messages is
not modelled (no claim concerns the message text). -/
def runDataQualityChecks (data : Dict) : String :=
  let issues1 := PLAUSIBILITY_RANGES.filterMap (fun r =>
    match toFloat? (dget data r.1) with
    | none => none
    | some f =>
      if ¬(r.2.1 ≤ f ∧ f ≤ r.2.2) then
        some (r.1 ++ "=" ++ toString f ++ " outside expected " ++
              toString r.2.1 ++ "-" ++ toString r.2.2)
      else none)
  let diffVals := DIFFERENTIAL_FIELDS.filterMap (fun f => toFloat? (dget data f))
  let issues2 :=
    if diffVals.length ≥ 3 ∧ |diffVals.sum - 100| > DIFFERENTIAL_SUM_TOLERANCE then
      ["Differential sum=" ++ toString diffVals.sum ++ " (expected ~100)"]
    else []
  let issues3 :=
    if pyTruthy (dget data "Blood_Group") ∧ ¬pyTruthy (dget data "Rh_Type") then
      ["Blood_Group present but Rh_Type missing"]
    else []
  let issues4 :=
    if pyTruthy (dget data "Height") ∧ pyTruthy (dget data "Weight") ∧
        pyTruthy (dget data "BMI") then
      match toFloat? (dget data "Height"), toFloat? (dget data "Weight"),
            toFloat? (dget data "BMI") with
      | some h, some w, some b =>
        let hM := h / 100
        if hM = 0 then []     -- ZeroDivisionError is caught and skipped
        else
          let calcBmi := w / (hM * hM)
          if |calcBmi - b| > 3 then
            ["BMI=" ++ toString b ++ " vs calculated=" ++ toString calcBmi ++
             " from H=" ++ toString h ++ "/W=" ++ toString w]
          else []
      | _, _, _ => []         -- TypeError / ValueError caught and skipped
    else []
  String.intercalate " | " (issues1 ++ issues2 ++ issues3 ++ issues4)

/-- Steps 1–2 of `validate_and_clean`: ensure every master key, flatten
nested `{value, flag}` objects. -/
def vStep12 (rawData : Dict) : Dict :=
  MASTER_COLUMNS.foldl (fun cleaned col =>
    match dget rawData col with
    | some (.pair v fl) =>
      let cleaned1 := dset cleaned col (v.map Prim.toVal)
      let flagCol := col ++ "_Flag"
      if flagCol ∈ FLAG_FIELDS ∧ pyTruthy (fl.map Prim.toVal) then
        dset cleaned1 flagCol (fl.map Prim.toVal)
      else cleaned1
    | val => dset cleaned col val) []

/-- Step 3: strip whitespace from string fields. -/
def vStrip (d : Dict) : Dict :=
  MASTER_COLUMNS.foldl (fun d col =>
    match dget d col with
    | some (.str s) => dset d col (some (.str (stripS s)))
    | _ => d) d

/-- One iteration of the step-4 loop body of `validate_and_clean` for a
single numeric field. -/
def step4 (d : Dict) (f : String) : Dict :=
  let cf := coerceNumeric (dget d f)
  let d1 := dset d f cf.1
  match cf.2 with
  | some hint =>
    let flagField := f ++ "_Flag"
    if flagField ∈ FLAG_FIELDS ∧ dget d1 flagField = none then
      dset d1 flagField (some (.str hint))
    else d1
  | none => d1

/-- Step 4: numeric coercion with embedded-flag splitting. -/
def vStep4 (d : Dict) : Dict :=
  NUMERIC_FIELDS.foldl step4 d

/-- Step 5: flag normalization. -/
def vStep5 (d : Dict) : Dict :=
  FLAG_FIELDS.foldl (fun d f => dset d f (normalizeFlagV (dget d f))) d

/-- Step 6: PatientName fallback; returns whether `NAME_NOT_FOUND` was noted. -/
def vStep6 (d : Dict) (filename : String) : Dict × Bool :=
  if !pyTruthy (dget d "PatientName") then
    let stem :=
      if endsWithS (lowerS filename) ".pdf" then
        String.mk (filename.data.take (filename.length - 4))
      else filename
    (dset d "PatientName" (some (.str stem)), true)
  else (d, false)

/-- Step 7: Blood_Group validation with trailing-Rh extraction. -/
def vStep7 (d : Dict) : Dict :=
  match dget d "Blood_Group" with
  | none => d
  | some rawBg =>
    let bgU0 := upperS (stripS (pyStr rawBg))
    let det : Option String × String :=
      if endsWithS bgU0 "+" then
        (some "Positive", stripS (String.mk (bgU0.data.take (bgU0.length - 1))))
      else if endsWithS bgU0 "-" then
        (some "Negative", stripS (String.mk (bgU0.data.take (bgU0.length - 1))))
      else if endsWithS bgU0 "POSITIVE" then
        (some "Positive", stripS (String.mk (bgU0.data.take (bgU0.length - 8))))
      else if endsWithS bgU0 "NEGATIVE" then
        (some "Negative", stripS (String.mk (bgU0.data.take (bgU0.length - 8))))
      else (none, bgU0)
    let bgU := det.2
    if bgU = "A" ∨ bgU = "B" ∨ bgU = "AB" ∨ bgU = "O" then
      let d1 := dset d "Blood_Group" (some (.str bgU))
      match det.1 with
      | some rh =>
        if !pyTruthy (dget d1 "Rh_Type") then dset d1 "Rh_Type" (some (.str rh))
        else d1
      | none => d1
    else dset d "Blood_Group" none

/-- Step 8: Rh_Type normalization. -/
def vStep8 (d : Dict) : Dict :=
  match dget d "Rh_Type" with
  | none => d
  | some rawRh =>
    let rhStr := upperS (stripS (pyStr rawRh))
    if rhStr = "+" ∨ rhStr = "POSITIVE" ∨ rhStr = "POS" ∨ rhStr = "RH+" ∨
        rhStr = "RH POSITIVE" then
      dset d "Rh_Type" (some (.str "Positive"))
    else if rhStr = "-" ∨ rhStr = "NEGATIVE" ∨ rhStr = "NEG" ∨ rhStr = "RH-" ∨
        rhStr = "RH NEGATIVE" then
      dset d "Rh_Type" (some (.str "Negative"))
    else d

/-- `validate_and_clean` -/
def validateAndClean (rawData : Dict) (filename : String)
    (existingNote : String) : Dict :=
  let notes0 : List String := if existingNote ≠ "" then [existingNote] else []
  let c1 := vStep12 rawData
  let c2 := vStrip c1
  let c3 := vStep4 c2
  let c4 := vStep5 c3
  let st6 := vStep6 c4 filename
  let notes1 := if st6.2 then notes0 ++ ["NAME_NOT_FOUND"] else notes0
  let c6 := vStep7 st6.1
  let c7 := vStep8 c6
  let quality := runDataQualityChecks c7
  let c8 := dset c7 "Data_Quality" (if quality ≠ "" then some (.str quality) else none)
  dset c8 "Extraction_Note"
    (if notes1 ≠ [] then some (.str (String.intercalate " | " notes1)) else none)

/-- `count_fields` -/
def countFields (data : Dict) : Nat × Nat :=
  let countable :=
    MASTER_COLUMNS.filter (fun col => col ∉ metaCols ∧ !endsWithS col "_Flag")
  let extracted := (countable.filter (fun col => (dget data col).isSome)).length
  (extracted, countable.length - extracted)

/-! ## `batch_processor.py` — field sets, merge engine, pruning -/

/-- `_NARRATIVE_FIELDS` (a Python set; only membership is used). -/
def NARRATIVE_FIELDS : List String :=
  ["XRAY", "PFT", "AUDIOMETRY", "Suggestion", "Remarks", "Mobile",
   "Urine_Colour", "Urine_Transparency", "Urine_PH",
   "Urine_Protein_Albumin", "Urine_Glucose", "Urine_Bilirubin",
   "Urine_Blood", "Urine_RBC",
   "Urine_Casts", "Urine_Crystals",
   "Urine_Specific_Gravity"]

/-- `_ALL_VALUE_FIELDS` -/
def ALL_VALUE_FIELDS : List String :=
  MASTER_COLUMNS.filter (fun col =>
    !endsWithS col "_Flag" ∧ col ≠ "Extraction_Note" ∧ col ≠ "Data_Quality")

/-- `_ALWAYS_KEEP_FIELDS` -/
def ALWAYS_KEEP_FIELDS : List String :=
  ["XRAY", "PFT", "AUDIOMETRY",
   "Remarks", "Suggestion",
   "PatientName", "Mobile", "EmpCode", "UHIDNo",
   "Lab_Name", "Report_Date"]

/-- `_FIELD_ALIASES` -/
def FIELD_ALIASES : List (String × List String) :=
  [("Age",                  ["age"]),
   ("Gender",               ["gender", "sex"]),
   ("Height",               ["height", " ht "]),
   ("Weight",               ["weight", " wt "]),
   ("BMI",                  ["bmi"]),
   ("BP",                   ["bp", "blood pressure"]),
   ("Pulse",                ["pulse", " pr "]),
   ("Blood_Group",          ["blood group", "abo group", "blood grp"]),
   ("Rh_Type",              ["rh ", "rhesus"]),
   ("Haemoglobin",          ["haemoglobin", "hemoglobin", "hb%", " hb "]),
   ("Red_Blood_Cell_Count", ["rbc", "r.b.c", "red blood cell"]),
   ("Hct",                  ["hct", "pcv", "p.c.v", "haematocrit", "hematocrit"]),
   ("MCV",                  ["mcv"]),
   ("MCH",                  [" mch "]),
   ("MCHC",                 ["mchc"]),
   ("RDW_CV",               ["rdw"]),
   ("RDW_SD",               ["rdw"]),
   ("TLC",                  ["tlc", "wbc", "leucocyte", "leukocyte", "total wbc"]),
   ("Neutrophil_Percent",   ["neutrophil", "neut"]),
   ("Lymphocyte_Percent",   ["lymphocyte", "lymph"]),
   ("Eosinophils_Percent",  ["eosinophil", "eos"]),
   ("Monocytes_Percent",    ["monocyte", "mono"]),
   ("Basophils_Percent",    ["basophil", "baso"]),
   ("Neutrophils_Absolute", ["neutrophil", "neut"]),
   ("Lymphocytes_Absolute", ["lymphocyte", "lymph"]),
   ("Eosinophils_Absolute", ["eosinophil"]),
   ("Monocytes_Absolute",   ["monocyte"]),
   ("Basophils_Absolute",   ["basophil"]),
   ("Platelet_Count",       ["platelet", "plt"]),
   ("MPV",                  ["mpv"]),
   ("ESR",                  ["esr", "e.s.r", "erythrocyte sedimentation"]),
   ("Blood_Sugar_Random",   ["blood sugar", "blood glucose", "bsr", " rbs "]),
   ("Serum_Creatinine",     ["creatinine", "s.creatinine"]),
   ("SGOT_AST",             ["sgot", "s.g.o.t", " ast "]),
   ("SGPT_ALT",             ["sgpt", "s.g.p.t", " alt "]),
   ("Urine_Colour",         ["colour", "color", "urine"]),
   ("Urine_Transparency",   ["transparency", "urine"]),
   ("Urine_Protein_Albumin", ["protein", "albumin"]),
   ("Urine_Glucose",        ["glucose", "urine"]),
   ("Urine_Bilirubin",      ["bilirubin"]),
   ("Urine_Blood",          ["urine blood", "blood urine"]),
   ("Urine_RBC",            ["urine rbc", "rbc urine"]),
   ("Urine_Casts",          ["casts"]),
   ("Urine_Crystals",       ["crystals"]),
   ("Urine_PH",             ["urine ph", " ph "]),
   ("Urine_Specific_Gravity", ["specific gravity", "sp. gravity", "sp.gr"])]

/-- `_empty_patient` -/
def emptyPatient : Dict := MASTER_COLUMNS.map (fun col => (col, none))

/-- `_get_null_fields` -/
def getNullFields (patient : Dict) : List String :=
  ALL_VALUE_FIELDS.filter (fun col => dget patient col = none)

/-- The value half of one `_merge_into_patient` iteration: narrative fields
concatenate distinct values, all others are first-writer-wins. -/
def mergeValuePart (patient : Dict) (fieldName : String) (value : Val) : Dict :=
  if fieldName ∈ NARRATIVE_FIELDS then
    match dget patient fieldName with
    | none => dset patient fieldName (some value)
    | some existing =>
      if stripS (pyStr existing) ≠ stripS (pyStr value) then
        dset patient fieldName
          (some (.str (pyStr existing ++ " | " ++ pyStr value)))
      else patient
  else
    if dget patient fieldName = none then dset patient fieldName (some value)
    else patient

/-- The flag half: propagate the paired `_Flag` value from the whole source
dict, first-writer-wins. -/
def mergeFlagPart (source patient1 : Dict) (fieldName : String) : Dict :=
  let flagCol := fieldName ++ "_Flag"
  if flagCol ∈ FLAG_FIELDS then
    match dget source flagCol with
    | some flagVal =>
      if dget patient1 flagCol = none then dset patient1 flagCol (some flagVal)
      else patient1
    | none => patient1
  else patient1

/-- One iteration of the `_merge_into_patient` loop for the source item
`entry` (a `None` value is skipped by `continue` before either half runs). -/
def mergeStep (source : Dict) (patient : Dict) (entry : String × Option Val) : Dict :=
  match entry.2 with
  | none => patient
  | some value => mergeFlagPart source (mergeValuePart patient entry.1 value) entry.1

/-- `_merge_into_patient` (the Python mutates `patient` while iterating the
items of `source` in insertion order). -/
def mergeIntoPatient (patient source : Dict) : Dict :=
  source.foldl (mergeStep source) patient

/-- `_mark_graph_present` -/
def markGraphPresent (patient : Dict) (graphType : Option String) : Dict :=
  let mapping : List (String × Option String) :=
    [("ECG", none), ("AUDIOGRAM", some "AUDIOMETRY"), ("TMT", some "PFT"),
     ("SPIROMETRY_CURVE", some "PFT"), ("GRAPH", none)]
  let key := match graphType with | some g => g | none => "GRAPH"
  let col : Option String :=
    match mapping.find? (fun e => e.1 == key) with
    | some e => e.2
    | none => none
  match col with
  | some c => if dget patient c = none then dset patient c (some (.str "PRESENT")) else patient
  | none => patient

/-! ## `pdf_processor.py` — classification (Pass 1) -/

def TEXT_MODE_MIN_CHARS : Nat := 100
def GRAPH_PAGE_MAX_CHARS : Nat := 200

/-- `GRAPH_KEYWORDS` from `config.py`. -/
def GRAPH_KEYWORDS : List String :=
  ["ECG", "EKG", "electrocardiogram",
   "audiogram", "audiometry graph",
   "spirometry curve", "flow volume",
   "TMT", "treadmill", "waveform"]

/-- `_GRAPH_TYPE_MAP` -/
def GRAPH_TYPE_MAP : List (List String × String) :=
  [(["ecg", "ekg", "electrocardiogram"], "ECG"),
   (["audiogram", "audiometry graph"], "AUDIOGRAM"),
   (["tmt", "treadmill"], "TMT"),
   (["spirometry curve", "flow volume"], "SPIROMETRY_CURVE")]

/-- `detect_graph_page` -/
def detectGraphPage (text : String) : Bool × Option String :=
  let tl := lowerS text
  match GRAPH_TYPE_MAP.find? (fun e => e.1.any (fun kw => containsSubS tl kw)) with
  | some e => (true, some e.2)
  | none =>
    if GRAPH_KEYWORDS.any (fun kw => containsSubS tl (lowerS kw)) then
      (true, some "GRAPH")
    else (false, none)

/-- A `PageResult`.  `handlers` records the full history of assignments to
the Python attribute `handler` (each Python assignment appends one entry), so
"assigned exactly once" is `handlers.length = 1`.  `hasImage` stands for
`image_base64 is not None`. -/
structure Page where
  pageNumber : Nat
  mode : String
  rawText : String := ""
  isGraphPage : Bool := false
  graphType : Option String := none
  hasImage : Bool := false
  ocrText : String := ""
  ocrAboveThreshold : Bool := false
  handlers : List String := []
deriving DecidableEq, Repr

def addHandler (p : Page) (h : String) : Page :=
  { p with handlers := p.handlers ++ [h] }

/-- Rendering/OCR oracle data for one page: whether the batch render returned
this page, and what the local OCR engine produced on it. -/
structure RenderInfo where
  rendered : Bool := false
  ocrText : String := ""
  ocrConfAbove : Bool := false
deriving Repr

/-- Pass 1 of `process_pdf` for one page (graph / text / ocr classification
and initial `handler`), with the Pass-2 render/OCR results attached from the
oracle `ri` (an un-rendered page keeps empty OCR data and no image). -/
def classifyPage (pageNumber : Nat) (rawText : String) (ri : RenderInfo) : Page :=
  let strippedText := stripS rawText
  let textLength := strippedText.length
  let dg := detectGraphPage rawText
  if textLength < GRAPH_PAGE_MAX_CHARS ∧ dg.1 then
    { pageNumber, mode := "graph", rawText := strippedText, isGraphPage := true,
      graphType := dg.2, handlers := ["GRAPH_PAGE"] }
  else if textLength ≥ TEXT_MODE_MIN_CHARS then
    { pageNumber, mode := "text", rawText := strippedText,
      hasImage := ri.rendered, handlers := [] }
  else
    { pageNumber, mode := "ocr", rawText := strippedText,
      hasImage := ri.rendered,
      ocrText := if ri.rendered then ri.ocrText else "",
      ocrAboveThreshold := if ri.rendered then ri.ocrConfAbove else false,
      handlers := ["CLAUDE_HANDLED"] }

/-! ## `batch_processor.py` — Phase 1 routing (`_process_single_file`) -/

/-- Phase-1 routing of one page (Branches A/B/C of `_process_single_file`).
Returns the updated patient, the page (with any handler assignment appended)
and `some mode` when the page was queued on `pending_ai`. -/
def phase1Page (patient : Dict) (page : Page) : Dict × Page × Option String :=
  if page.isGraphPage then
    (markGraphPresent patient page.graphType, addHandler page "GRAPH_PAGE", none)
  else if page.mode = "ocr" then
    if page.ocrText ≠ "" ∧ page.ocrAboveThreshold then
      let ocrRegex := extractWithRegex page.ocrText.data
      let ocrFields := countRegexFields ocrRegex
      if ocrFields ≥ 3 then
        (mergeIntoPatient patient ocrRegex, addHandler page "OCR_HANDLED", none)
      else
        let patient1 :=
          if ocrFields > 0 then mergeIntoPatient patient ocrRegex else patient
        if page.hasImage then (patient1, page, some "image")
        else (patient1, addHandler page "SKIPPED_NO_IMAGE", none)
    else
      if page.hasImage then (patient, page, some "image")
      else (patient, addHandler page "SKIPPED_NO_IMAGE", none)
  else
    let regexResult := extractWithRegex page.rawText.data
    let fieldsFound := countRegexFields regexResult
    if fieldsFound ≥ 3 then
      (mergeIntoPatient patient regexResult, addHandler page "REGEX_HANDLED", none)
    else
      let patient1 :=
        if fieldsFound > 0 then mergeIntoPatient patient regexResult else patient
      if page.rawText ≠ "" then (patient1, page, some "text")
      else (patient1, addHandler page "SKIPPED_NO_NULLS", none)

/-- The Phase-1 loop over all pages, threading the patient record and
collecting `pending_ai` in page order. -/
def phase1 (patient : Dict) : List Page → Dict × List Page × List (Page × String)
  | [] => (patient, [], [])
  | pg :: rest =>
    let r := phase1Page patient pg
    let rr := phase1 r.1 rest
    (rr.1, r.2.1 :: rr.2.1,
     (match r.2.2 with | some m => [(r.2.1, m)] | none => []) ++ rr.2.2)

/-! ## `batch_processor.py` — Phase 2 (chunking and remote calls) -/

def IMAGE_CHUNK_SIZE : Nat := 3
def TEXT_CHUNK_SIZE : Nat := 4

/-- `xs` split into groups of `n` (the `range(0, len, n)` slicing loop). -/
def chunkFuel : Nat → List α → Nat → List (List α)
  | 0, _, _ => []
  | _, [], _ => []
  | fuel + 1, xs, n => xs.take n :: chunkFuel fuel (xs.drop n) n

def chunkEvery (xs : List α) (n : Nat) : List (List α) :=
  if n = 0 then [] else chunkFuel xs.length xs n

/-- `_prune_null_fields_for_chunk` -/
def pruneNullFieldsForChunk (nullFields : List String) (pages : List Page)
    (mode : String) : List String :=
  if mode = "image" then nullFields
  else
    let combinedText :=
      lowerS (String.intercalate " "
        (pages.filterMap (fun p => if p.rawText ≠ "" then some p.rawText else none)))
    nullFields.filter (fun fieldName =>
      if fieldName ∈ ALWAYS_KEEP_FIELDS then true
      else
        match FIELD_ALIASES.find? (fun e => e.1 == fieldName) with
        | none => true
        | some e =>
          if e.2.isEmpty then true
          else e.2.any (fun al => containsSubS combinedText al))

/-- `_build_chunks` -/
def buildChunks (pendingAi : List (Page × String))
    (imageChunkSize textChunkSize : Nat) : List (List Page × String) :=
  let imagePages := pendingAi.filterMap (fun e => if e.2 = "image" then some e.1 else none)
  let textPages := pendingAi.filterMap (fun e => if e.2 = "text" then some e.1 else none)
  (chunkEvery imagePages imageChunkSize).map (fun c => (c, "image")) ++
  (chunkEvery textPages textChunkSize).map (fun c => (c, "text"))

/-- Abstraction of `extract_with_ai` for one fired request: from the (pruned)
null-field list, the mode, and the chunk's pages, the remote service yields
`(partial dict, note, input tokens, output tokens)`. -/
def Oracle := List String → String → List Page → Dict × String × Nat × Nat

structure ChunkOutcome where
  pages : List Page
  aiResult : Dict
  aiNote : String
  inTok : Nat
  outTok : Nat
  /-- whether `extract_with_ai` was actually invoked for this chunk -/
  called : Bool

/-- `_call_chunk` (no exception path: the oracle is total). -/
def callChunk (nullFieldsSnapshot : List String) (ai : Oracle)
    (pages : List Page) (mode : String) : ChunkOutcome :=
  if mode = "image" then
    let images := pages.filter (·.hasImage)
    if images.isEmpty then
      { pages := pages.map (addHandler · "SKIPPED_NO_IMAGE"),
        aiResult := [], aiNote := "", inTok := 0, outTok := 0, called := false }
    else
      let r := ai nullFieldsSnapshot "image" pages
      { pages := pages, aiResult := r.1, aiNote := r.2.1,
        inTok := r.2.2.1, outTok := r.2.2.2, called := true }
  else
    let chunkNullFields := pruneNullFieldsForChunk nullFieldsSnapshot pages "text"
    if chunkNullFields.isEmpty then
      { pages := pages.map (addHandler · "SKIPPED_NO_NULLS"),
        aiResult := [], aiNote := "", inTok := 0, outTok := 0, called := false }
    else
      let r := ai chunkNullFields "text" pages
      { pages := pages, aiResult := r.1, aiNote := r.2.1,
        inTok := r.2.2.1, outTok := r.2.2.2, called := true }

structure Phase2State where
  patient : Dict
  pagesOut : List Page
  inTok : Nat
  outTok : Nat
  notes : List String

/-- One iteration of the Step-4 result-merge loop over chunk outcomes:
accumulate tokens and notes, merge a truthy result dict, and re-tag every
page of the chunk `AI_HANDLED` (the Python does this for every non-exception
outcome, skipped chunks included). -/
def mergeOutcome (st : Phase2State) (oc : ChunkOutcome) : Phase2State :=
  { patient := if oc.aiResult ≠ [] then mergeIntoPatient st.patient oc.aiResult
               else st.patient,
    pagesOut := st.pagesOut ++ oc.pages.map (addHandler · "AI_HANDLED"),
    inTok := st.inTok + oc.inTok,
    outTok := st.outTok + oc.outTok,
    notes := st.notes ++ (if oc.aiNote ≠ "" then [oc.aiNote] else []) }

/-- In-place page mutation through aliasing: the final page list is the
Phase-1 list with each page replaced by its updated copy from the chunk
outcomes (page numbers are assumed distinct, as `process_pdf` enumerates
them). -/
def applyUpdates (pages updated : List Page) : List Page :=
  pages.map (fun p =>
    match updated.find? (fun u => u.pageNumber == p.pageNumber) with
    | some u => u
    | none => p)

structure FileRun where
  patient : Dict
  pages : List Page
  pending : List (Page × String)
  snapshot : List String
  chunks : List (List Page × String)
  outcomes : List ChunkOutcome
  inTok : Nat
  outTok : Nat

/-- `_process_single_file`, Phase 1 + Phase 2, without the failure paths
(PDF errors and chunk exceptions) and the final validation/reporting, which
the claims below do not touch. -/
def processFile (pages : List Page) (ai : Oracle) : FileRun :=
  let r1 := phase1 emptyPatient pages
  let snapshot := getNullFields r1.1
  let pending2 := if snapshot.isEmpty then [] else r1.2.2
  let chunks := buildChunks pending2 IMAGE_CHUNK_SIZE TEXT_CHUNK_SIZE
  let outcomes := chunks.map (fun c => callChunk snapshot ai c.1 c.2)
  let merged := outcomes.foldl mergeOutcome ⟨r1.1, [], 0, 0, []⟩
  { patient := merged.patient,
    pages := applyUpdates r1.2.1 merged.pagesOut,
    pending := r1.2.2,
    snapshot := snapshot,
    chunks := chunks,
    outcomes := outcomes,
    inTok := merged.inTok,
    outTok := merged.outTok }

/-- Page numbers of every chunk that fired a remote call. -/
def calledPageNumbers (run : FileRun) : List Nat :=
  (run.outcomes.filter (·.called)).flatMap (fun oc => oc.pages.map (·.pageNumber))

/-- Number of remote calls the document made. -/
def numRemoteCalls (run : FileRun) : Nat :=
  (run.outcomes.filter (·.called)).length

/-! ## `ocr_extractor.py` -/

/-- One box of `pytesseract.image_to_data` output. -/
structure TessToken where
  text : String
  conf : Int
  blockNum : Nat
  parNum : Nat
  lineNum : Nat
deriving DecidableEq, Repr

structure OcrResult where
  text : String
  confidence : ℚ
  engine : String
  aboveThreshold : Bool
deriving DecidableEq, Repr

/-- `OCR_CONFIDENCE_THRESHOLD` (config default `0.7`). -/
def OCR_CONFIDENCE_THRESHOLD : ℚ := 7 / 10

def roundHalfEven (s : ℚ) : ℤ :=
  let f := ⌊s⌋
  let r := s - f
  if r < 1 / 2 then f
  else if 1 / 2 < r then f + 1
  else if f % 2 = 0 then f else f + 1

/-- Python `round(x, 4)` (banker's rounding; the exact-tie behaviour of
binary floats is approximated by exact-rational ties, which no claim
exercises). -/
def roundQ4 (q : ℚ) : ℚ := (roundHalfEven (q * 10000) : ℚ) / 10000

structure KeptTok where
  blockNum : Nat
  parNum : Nat
  lineNum : Nat
  word : String
  conf : ℚ

/-- `_ocr_with_tesseract` after a successful `image_to_data` call. -/
def ocrWithTesseract (data : List TessToken) : OcrResult :=
  let kept : List KeptTok := data.filterMap (fun t =>
    let word := stripS t.text
    if t.conf = -1 ∨ word = "" then none
    else some ⟨t.blockNum, t.parNum, t.lineNum, word, (t.conf : ℚ) / 100⟩)
  let lines := kept.foldl
    (fun (acc : List ((Nat × Nat × Nat) × List String)) e =>
      let key := (e.blockNum, e.parNum, e.lineNum)
      if acc.any (fun g => g.1 = key) then
        acc.map (fun g => if g.1 = key then (g.1, g.2 ++ [e.word]) else g)
      else acc ++ [(key, [e.word])]) []
  let confidences := kept.map (·.conf)
  let extractedText :=
    String.intercalate "\n" (lines.map (fun g => String.intercalate " " g.2))
  let meanConfidence :=
    if confidences.isEmpty then 0 else confidences.sum / confidences.length
  { text := extractedText,
    confidence := roundQ4 meanConfidence,
    engine := "tesseract",
    aboveThreshold := meanConfidence ≥ OCR_CONFIDENCE_THRESHOLD }

/-- `ocr_page_image`: `none` models any exception from the Tesseract layer. -/
def ocrPageImage (result : Option (List TessToken)) : OcrResult :=
  match result with
  | some data => ocrWithTesseract data
  | none => { text := "", confidence := 0, engine := "none", aboveThreshold := false }

/-- The mean of per-recognized-token confidences as §4.2 of the spec words it
(tokens with no confidence signal excluded, empty set ↦ 0) — the comparison
target for the OCR claim. -/
def specMeanConfidence (data : List TessToken) : ℚ :=
  let cs := data.filterMap (fun t =>
    if t.conf = -1 ∨ stripS t.text = "" then none else some ((t.conf : ℚ) / 100))
  if cs.isEmpty then 0 else cs.sum / cs.length

/-! ## Claim-support definitions -/

/-- The value field paired with a `_Flag` field (drop the 5-char suffix). -/
def baseOf (f : String) : String := String.mk (f.data.take (f.data.length - 5))

/-- The §3 pairing invariant: a flag field is non-null only if its paired
value field is non-null. -/
def FlagInvariant (d : Dict) : Prop :=
  ∀ f ∈ FLAG_FIELDS, dget d f ≠ none → dget d (baseOf f) ≠ none

/-- Processed entries with non-null values stay non-null on the patient. -/
def InvA (q : Dict) (proc : List (String × Option Val)) : Prop :=
  ∀ k w, (k, some w) ∈ proc → dget q k ≠ none

/-- Mid-merge pairing: a non-null flag has its base non-null already, or the
base is still due to be written from the remaining entries. -/
def InvB (q : Dict) (rem : List (String × Option Val)) : Prop :=
  ∀ f ∈ FLAG_FIELDS, dget q f ≠ none →
    dget q (baseOf f) ≠ none ∨ ∃ v, (baseOf f, some v) ∈ rem

/-- C3 failing input: a pending text-mode page whose text carries no alias of
the only null field. -/
def c3Page : Page :=
  { pageNumber := 1, mode := "text", rawText := "hello world" }

/-- An oracle that would charge tokens if it were ever consulted. -/
def c3Oracle : Oracle := fun _ _ _ => ([("MCV", some (.num 1))], "", 5, 7)

/-- The (fixed) key sequence of every `extract_with_regex` result. -/
def regexResultKeys : List String :=
  numericPatterns.flatMap (fun pf => [pf.2, pf.2 ++ "_Flag"]) ++
  patientPatterns.map (·.2) ++
  ["BP", "PatientName", "Gender", "Blood_Group", "Rh_Type",
   "EmpCode", "UHIDNo",
   "Mobile", "Remarks",
   "Urine_Colour", "Urine_Transparency", "Urine_PH",
   "Urine_Protein_Albumin", "Urine_Glucose",
   "Urine_Bilirubin", "Urine_Blood", "Urine_RBC",
   "Urine_Casts", "Urine_Crystals", "Urine_Specific_Gravity",
   "AUDIOMETRY", "PFT", "XRAY", "Suggestion"]

/-- The fields filled from numeric patterns (`_NUMERIC_PATTERNS` and the
numeric `_PATIENT_PATTERNS`). -/
def numericPatternFields : List String :=
  numericPatterns.map (·.2) ++ patientPatterns.map (·.2)

/-- The concrete spec example text for the routing rule. -/
def c1text : String := "Haemoglobin: 12.6\nTLC: 8200\nESR: 10"

def c1page : Page := { pageNumber := 1, mode := "text", rawText := c1text }

/-- A trivial remote oracle (its answers are irrelevant to C1). -/
def c1oracle : Oracle := fun _ _ _ => ([], "", 0, 0)

/-- A graph page as `process_pdf` classifies it. -/
def c6page : Page :=
  { pageNumber := 1, mode := "graph", isGraphPage := true,
    graphType := some "ECG", handlers := ["GRAPH_PAGE"] }

/-! ## Dict lemmas -/

/-- Replacing the entries keyed `k` makes the first `k`-lookup find `(k, v)`,
provided some entry has key `k`. -/
theorem find?_replace_self (d : Dict) (k : String) (v : Option Val)
    (h : d.any (fun e => e.1 == k) = true) :
    (d.map (fun e => if e.1 == k then (k, v) else e)).find? (fun e => e.1 == k) =
      some (k, v) := by
  induction d with
  | nil => simp at h
  | cons e t ih =>
    simp only [List.map_cons, List.find?_cons]
    by_cases he : (e.1 == k) = true
    · simp [he]
    · simp only [he, Bool.false_eq_true, if_false]
      simp only [List.any_cons, he, Bool.false_or] at h
      exact ih h

/-- Replacing the entries keyed `k` does not disturb lookups of `k' ≠ k`. -/
theorem find?_replace_ne (d : Dict) (k k' : String) (v : Option Val)
    (h : k' ≠ k) :
    (d.map (fun e => if e.1 == k then (k, v) else e)).find? (fun e => e.1 == k') =
      d.find? (fun e => e.1 == k') := by
  induction d with
  | nil => simp
  | cons e t ih =>
    simp only [List.map_cons, List.find?_cons]
    by_cases hek : (e.1 == k) = true
    · have hek' : e.1 = k := by simpa using hek
      have h1 : ((k, v).1 == k') = false := by
        simp only [beq_eq_false_iff_ne, ne_eq]
        exact fun hh => h hh.symm
      have h2 : (e.1 == k') = false := by
        simp only [beq_eq_false_iff_ne, ne_eq, hek']
        exact fun hh => h hh.symm
      simp only [hek, if_true, h1, h2, Bool.false_eq_true, if_false]
      exact ih
    · simp only [hek, Bool.false_eq_true, if_false]
      by_cases he' : (e.1 == k') = true
      · simp [he']
      · simp only [he', Bool.false_eq_true, if_false]
        exact ih

theorem dget_dset_self (d : Dict) (k : String) (v : Option Val) :
    dget (dset d k v) k = v := by
  unfold dget dset
  by_cases h : d.any (fun e => e.1 == k) = true
  · simp only [h, if_true, find?_replace_self d k v h]
  · simp only [h, if_false, List.find?_append]
    have hnone : d.find? (fun e => e.1 == k) = none := by
      rw [List.find?_eq_none]
      intro x hx hpx
      exact h (List.any_eq_true.mpr ⟨x, hx, hpx⟩)
    simp [hnone]

theorem dget_dset_ne (d : Dict) (k k' : String) (v : Option Val) (h : k' ≠ k) :
    dget (dset d k v) k' = dget d k' := by
  unfold dget dset
  by_cases hany : d.any (fun e => e.1 == k) = true
  · simp only [hany, if_true, find?_replace_ne d k k' v h]
  · simp only [hany, if_false, List.find?_append]
    have h1 : ((k, v).1 == k') = false := by
      simp only [beq_eq_false_iff_ne, ne_eq]
      exact fun hh => h hh.symm
    cases hd : d.find? (fun e => e.1 == k') with
    | some e => simp [hd]
    | none => simp [hd, h1]

/-- A successful lookup comes from a member entry. -/
theorem exists_mem_of_dget_ne_none (d : Dict) (k : String)
    (h : dget d k ≠ none) : ∃ v, (k, some v) ∈ d := by
  unfold dget at h
  cases hf : d.find? (fun e => e.1 == k) with
  | none => rw [hf] at h; exact absurd rfl h
  | some e =>
    rw [hf] at h
    have h2 : e.2 ≠ none := h
    have hmem := List.mem_of_find?_eq_some hf
    have hkey : e.1 = k := by
      have := List.find?_some hf
      simpa using this
    cases hv : e.2 with
    | none => exact absurd hv h2
    | some v =>
      refine ⟨v, ?_⟩
      have : e = (k, some v) := by
        cases e; simp_all
      rwa [this] at hmem

/-- With distinct keys, membership determines the lookup. -/
theorem dget_eq_of_mem_nodup (d : Dict) (k : String) (v : Option Val)
    (hnd : (d.map Prod.fst).Nodup) (hmem : (k, v) ∈ d) : dget d k = v := by
  induction d with
  | nil => simp at hmem
  | cons e t ih =>
    simp only [List.map_cons, List.nodup_cons] at hnd
    rcases List.mem_cons.mp hmem with h | h
    · subst h
      unfold dget
      simp [List.find?_cons]
    · have hk : e.1 ≠ k := by
        intro hek
        exact hnd.1 (hek ▸ (List.mem_map.mpr ⟨(k, v), h, rfl⟩))
      unfold dget
      simp only [List.find?_cons, show (e.1 == k) = false by simpa using hk,
        Bool.false_eq_true]
      exact ih hnd.2 h

/-! ## Merge-engine lemmas -/

theorem mergeValuePart_ne (p : Dict) (f : String) (v : Val) (k : String)
    (h : k ≠ f) : dget (mergeValuePart p f v) k = dget p k := by
  unfold mergeValuePart
  by_cases h1 : f ∈ NARRATIVE_FIELDS
  · rw [if_pos h1]
    cases hdg : dget p f with
    | none => exact dget_dset_ne p f k _ h
    | some existing =>
      show dget (if stripS (pyStr existing) ≠ stripS (pyStr v) then
        dset p f (some (.str (pyStr existing ++ " | " ++ pyStr v))) else p) k = dget p k
      by_cases h2 : stripS (pyStr existing) ≠ stripS (pyStr v)
      · rw [if_pos h2]
        exact dget_dset_ne p f k _ h
      · rw [if_neg h2]
  · rw [if_neg h1]
    by_cases h2 : dget p f = none
    · rw [if_pos h2]
      exact dget_dset_ne p f k _ h
    · rw [if_neg h2]

/-- A non-narrative field already non-null is left untouched. -/
theorem mergeValuePart_nonnull (p : Dict) (f : String) (v : Val)
    (hnar : f ∉ NARRATIVE_FIELDS) (h : dget p f ≠ none) :
    mergeValuePart p f v = p := by
  unfold mergeValuePart
  rw [if_neg hnar, if_neg h]

/-- After the value half, the written field is non-null. -/
theorem mergeValuePart_self_ne_none (p : Dict) (f : String) (v : Val) :
    dget (mergeValuePart p f v) f ≠ none := by
  unfold mergeValuePart
  by_cases h1 : f ∈ NARRATIVE_FIELDS
  · rw [if_pos h1]
    cases hdg : dget p f with
    | none => rw [dget_dset_self]; simp
    | some existing =>
      show dget (if stripS (pyStr existing) ≠ stripS (pyStr v) then
        dset p f (some (.str (pyStr existing ++ " | " ++ pyStr v))) else p) f ≠ none
      by_cases h2 : stripS (pyStr existing) ≠ stripS (pyStr v)
      · rw [if_pos h2, dget_dset_self]; simp
      · rw [if_neg h2, hdg]; simp
  · rw [if_neg h1]
    by_cases h2 : dget p f = none
    · rw [if_pos h2, dget_dset_self]; simp
    · rw [if_neg h2]; exact h2

theorem mergeFlagPart_ne (s p1 : Dict) (f k : String) (h : k ≠ f ++ "_Flag") :
    dget (mergeFlagPart s p1 f) k = dget p1 k := by
  simp only [mergeFlagPart]
  by_cases h1 : f ++ "_Flag" ∈ FLAG_FIELDS
  · rw [if_pos h1]
    cases hdg : dget s (f ++ "_Flag") with
    | none => rfl
    | some flagVal =>
      show dget (if dget p1 (f ++ "_Flag") = none then
        dset p1 (f ++ "_Flag") (some flagVal) else p1) k = dget p1 k
      by_cases h2 : dget p1 (f ++ "_Flag") = none
      · rw [if_pos h2]
        exact dget_dset_ne p1 _ k _ h
      · rw [if_neg h2]
  · rw [if_neg h1]

/-- An already non-null flag is never overwritten by the propagation. -/
theorem mergeFlagPart_of_nonnull (s p1 : Dict) (f : String)
    (h : dget p1 (f ++ "_Flag") ≠ none) : mergeFlagPart s p1 f = p1 := by
  simp only [mergeFlagPart]
  by_cases h1 : f ++ "_Flag" ∈ FLAG_FIELDS
  · rw [if_pos h1]
    cases hdg : dget s (f ++ "_Flag") with
    | none => rfl
    | some flagVal =>
      show (if dget p1 (f ++ "_Flag") = none then
        dset p1 (f ++ "_Flag") (some flagVal) else p1) = p1
      rw [if_neg h]
  · rw [if_neg h1]

theorem mergeFlagPart_ne_none (s p1 : Dict) (f k : String)
    (h : dget p1 k ≠ none) : dget (mergeFlagPart s p1 f) k ≠ none := by
  simp only [mergeFlagPart]
  by_cases h1 : f ++ "_Flag" ∈ FLAG_FIELDS
  · rw [if_pos h1]
    cases hdg : dget s (f ++ "_Flag") with
    | none => exact h
    | some flagVal =>
      show dget (if dget p1 (f ++ "_Flag") = none then
        dset p1 (f ++ "_Flag") (some flagVal) else p1) k ≠ none
      by_cases h2 : dget p1 (f ++ "_Flag") = none
      · rw [if_pos h2]
        by_cases hk : k = f ++ "_Flag"
        · subst hk; rw [dget_dset_self]; simp
        · rw [dget_dset_ne _ _ _ _ hk]; exact h
      · rw [if_neg h2]; exact h
  · rw [if_neg h1]; exact h

/-- One merge iteration never nulls a non-null field. -/
theorem dget_mergeStep_ne_none (s q : Dict) (e : String × Option Val) (k : String)
    (h : dget q k ≠ none) : dget (mergeStep s q e) k ≠ none := by
  rcases e with ⟨ek, ev⟩
  cases ev with
  | none => exact h
  | some v =>
    show dget (mergeFlagPart s (mergeValuePart q ek v) ek) k ≠ none
    apply mergeFlagPart_ne_none
    by_cases hk : k = ek
    · subst hk; exact mergeValuePart_self_ne_none q k v
    · rw [mergeValuePart_ne q ek v k hk]; exact h

/-- One merge iteration touches only the entry's key and its paired flag. -/
theorem dget_mergeStep_other (s q : Dict) (e : String × Option Val) (k : String)
    (h1 : k ≠ e.1) (h2 : k ≠ e.1 ++ "_Flag") :
    dget (mergeStep s q e) k = dget q k := by
  rcases e with ⟨ek, ev⟩
  cases ev with
  | none => rfl
  | some v =>
    show dget (mergeFlagPart s (mergeValuePart q ek v) ek) k = dget q k
    rw [mergeFlagPart_ne _ _ _ _ h2, mergeValuePart_ne _ _ _ _ h1]

/-- A non-null non-narrative field keeps its exact value through one merge
iteration. -/
theorem dget_mergeStep_nonnull (s q : Dict) (e : String × Option Val)
    (k : String) (v : Val) (hnar : k ∉ NARRATIVE_FIELDS)
    (h : dget q k = some v) : dget (mergeStep s q e) k = some v := by
  rcases e with ⟨ek, ev⟩
  cases ev with
  | none => exact h
  | some w =>
    show dget (mergeFlagPart s (mergeValuePart q ek w) ek) k = some v
    have hval : dget (mergeValuePart q ek w) k = some v := by
      by_cases hk : k = ek
      · subst hk
        rw [mergeValuePart_nonnull q k w hnar (by rw [h]; simp)]
        exact h
      · rw [mergeValuePart_ne q ek w k hk]; exact h
    by_cases hk2 : k = ek ++ "_Flag"
    · subst hk2
      rw [mergeFlagPart_of_nonnull s _ ek (by rw [hval]; simp)]
      exact hval
    · rw [mergeFlagPart_ne _ _ _ _ hk2]
      exact hval

theorem dget_foldl_mergeStep_nonnull (s : Dict) (l : List (String × Option Val))
    (p : Dict) (k : String) (v : Val) (hnar : k ∉ NARRATIVE_FIELDS)
    (h : dget p k = some v) : dget (l.foldl (mergeStep s) p) k = some v := by
  induction l generalizing p with
  | nil => exact h
  | cons e t ih =>
    exact ih (mergeStep s p e) (dget_mergeStep_nonnull s p e k v hnar h)

/-- A non-null non-narrative field keeps its exact value through a whole
`_merge_into_patient` call. -/
theorem dget_merge_nonnull (patient source : Dict) (k : String) (v : Val)
    (hnar : k ∉ NARRATIVE_FIELDS) (h : dget patient k = some v) :
    dget (mergeIntoPatient patient source) k = some v :=
  dget_foldl_mergeStep_nonnull source source patient k v hnar h

/-! ## String-suffix helpers -/

theorem string_data_append (a b : String) : (a ++ b).data = a.data ++ b.data := rfl

theorem self_ne_append_flag (f : String) : f ≠ f ++ "_Flag" := by
  intro h
  have h1 := congrArg String.length h
  rw [String.length_append] at h1
  have h5 : "_Flag".length = 5 := rfl
  omega

theorem append_flag_right_cancel (a b : String) (h : a ++ "_Flag" = b ++ "_Flag") :
    a = b := by
  have hd : a.data ++ "_Flag".data = b.data ++ "_Flag".data := by
    rw [← string_data_append, ← string_data_append, h]
  have hab : a.data = b.data := List.append_cancel_right hd
  cases a; cases b
  exact congrArg String.mk hab

/-- No narrative field is of the form `g ++ "_Flag"`. -/
theorem narrative_no_flag_suffix (f : String) (hf : f ∈ NARRATIVE_FIELDS)
    (g : String) : f ≠ g ++ "_Flag" := by
  intro heq
  have hd : f.data = g.data ++ "_Flag".data := by rw [heq]; rfl
  have hdrop : f.data.drop (f.data.length - 5) = "_Flag".data := by
    have h5 : "_Flag".data.length = 5 := rfl
    rw [hd, List.length_append, h5, Nat.add_sub_cancel, List.drop_left]
  have hall : ∀ x ∈ NARRATIVE_FIELDS,
      x.data.drop (x.data.length - 5) ≠ "_Flag".data := by decide
  exact hall f hf hdrop

theorem dget_foldl_mergeStep_other (s : Dict) (l : List (String × Option Val))
    (p : Dict) (k : String)
    (hl : ∀ e ∈ l, k ≠ e.1 ∧ k ≠ e.1 ++ "_Flag") :
    dget (l.foldl (mergeStep s) p) k = dget p k := by
  induction l generalizing p with
  | nil => rfl
  | cons e t ih =>
    rw [List.foldl_cons, ih (mergeStep s p e) (fun x hx => hl x (List.mem_cons_of_mem e hx)),
      dget_mergeStep_other s p e k (hl e (List.mem_cons_self e t)).1
        (hl e (List.mem_cons_self e t)).2]

/-- The merge iteration at a narrative entry whose field is already non-null:
append with the pipe separator iff the stripped strings differ. -/
theorem dget_mergeStep_narrative_entry (s q : Dict) (f : String) (w : Val)
    (hnar : f ∈ NARRATIVE_FIELDS) (e : Val) (h : dget q f = some e) :
    dget (mergeStep s q (f, some w)) f =
      (if stripS (pyStr e) = stripS (pyStr w) then some e
       else some (.str (pyStr e ++ " | " ++ pyStr w))) := by
  show dget (mergeFlagPart s (mergeValuePart q f w) f) f = _
  rw [mergeFlagPart_ne s _ f f (self_ne_append_flag f)]
  unfold mergeValuePart
  rw [if_pos hnar, h]
  show dget (if stripS (pyStr e) ≠ stripS (pyStr w) then
    dset q f (some (.str (pyStr e ++ " | " ++ pyStr w))) else q) f = _
  by_cases h2 : stripS (pyStr e) = stripS (pyStr w)
  · rw [if_neg (fun hh => hh h2), if_pos h2]
    exact h
  · rw [if_pos h2, if_neg h2, dget_dset_self]

/-- C2 (amended): (1) a merge never changes a non-narrative field that is
already non-null, over any sequence of tier outputs; (2) for a narrative
field already holding `e`, merging an output carrying `w` appends
`" | " ++ w` exactly when `e` and `w` differ after stripping leading and
trailing whitespace — the comparison is case-SENSITIVE (the code point the
claim got wrong). -/
theorem c2_merge_first_writer_wins :
    (∀ (patient : Dict) (sources : List Dict) (f : String) (v : Val),
      f ∉ NARRATIVE_FIELDS → dget patient f = some v →
      dget (sources.foldl mergeIntoPatient patient) f = some v) ∧
    (∀ (patient source : Dict) (f e w : String),
      f ∈ NARRATIVE_FIELDS →
      (source.map Prod.fst).Nodup →
      (f, some (.str w)) ∈ source →
      dget patient f = some (.str e) →
      dget (mergeIntoPatient patient source) f =
        (if stripS e = stripS w then some (.str e)
         else some (.str (e ++ " | " ++ w)))) := by
  constructor
  · intro patient sources f v hnar h
    induction sources generalizing patient with
    | nil => exact h
    | cons s t ih =>
      exact ih (mergeIntoPatient patient s) (dget_merge_nonnull patient s f v hnar h)
  · intro patient source f e w hnar hnd hmem hval
    obtain ⟨pre, post, hsrc⟩ := List.append_of_mem hmem
    subst hsrc
    have hkeys : ((pre.map Prod.fst) ++ f :: (post.map Prod.fst)).Nodup := by
      simpa using hnd
    have hfpre : ∀ x ∈ pre, f ≠ x.1 := by
      intro x hx heq
      rcases List.nodup_append.mp hkeys with ⟨-, -, hdisj⟩
      exact hdisj (heq ▸ List.mem_map.mpr ⟨x, hx, rfl⟩) (List.mem_cons_self _ _)
    have hfpost : ∀ x ∈ post, f ≠ x.1 := by
      intro x hx heq
      rcases List.nodup_append.mp hkeys with ⟨-, hnd2, -⟩
      rcases List.nodup_cons.mp hnd2 with ⟨hnotin, -⟩
      exact hnotin (heq ▸ List.mem_map.mpr ⟨x, hx, rfl⟩)
    unfold mergeIntoPatient
    rw [List.foldl_append, List.foldl_cons]
    set src := pre ++ (f, some (Val.str w)) :: post with hsrcdef
    have hp1 : dget (pre.foldl (mergeStep src) patient) f = some (.str e) := by
      rw [dget_foldl_mergeStep_other src pre patient f
        (fun x hx => ⟨hfpre x hx, narrative_no_flag_suffix f hnar x.1⟩)]
      exact hval
    rw [dget_foldl_mergeStep_other src post _ f
      (fun x hx => ⟨hfpost x hx, narrative_no_flag_suffix f hnar x.1⟩)]
    have := dget_mergeStep_narrative_entry src
      (pre.foldl (mergeStep src) patient) f (.str w) hnar (.str e) hp1
    simpa [pyStr] using this

/-- C2 counterexample to the claim as stated: `"normal"` and `"NORMAL"` are
equal under a case-insensitive (and stripped) comparison, yet the merge
appends rather than leaving the narrative field unchanged — the code
compares case-sensitively. -/
theorem c2_case_insensitive_cex :
    lowerS (stripS "normal") = lowerS (stripS "NORMAL") ∧
    dget (mergeIntoPatient (dset emptyPatient "Remarks" (some (.str "normal")))
        [("Remarks", some (.str "NORMAL"))]) "Remarks" =
      some (.str "normal | NORMAL") := by
  refine ⟨by decide, by decide⟩

/-! ## C5 — flag/value pairing -/


theorem flag_base_append : ∀ f ∈ FLAG_FIELDS, baseOf f ++ "_Flag" = f := by decide

theorem flag_base_ne_self : ∀ f ∈ FLAG_FIELDS, baseOf f ≠ f := by decide


theorem mergeStep_inv (s : Dict) (hnd : (s.map Prod.fst).Nodup)
    (hs : FlagInvariant s) (proc rem : List (String × Option Val))
    (e : String × Option Val) (hsplit : s = proc ++ e :: rem)
    (q : Dict) (hA : InvA q proc) (hB : InvB q (e :: rem)) :
    InvA (mergeStep s q e) (proc ++ [e]) ∧ InvB (mergeStep s q e) rem := by
  rcases e with ⟨ek, ev⟩
  constructor
  · intro k w hmem
    rcases List.mem_append.mp hmem with hp | hsing
    · exact dget_mergeStep_ne_none s q _ k (hA k w hp)
    · have he : (k, some w) = (ek, ev) := by simpa using hsing
      have hk : k = ek := congrArg Prod.fst he
      have hv : (some w : Option Val) = ev := congrArg Prod.snd he
      subst hk
      rw [← hv]
      show dget (mergeFlagPart s (mergeValuePart q k w) k) k ≠ none
      exact mergeFlagPart_ne_none s _ k k (mergeValuePart_self_ne_none q k w)
  · intro f hfF hne
    cases ev with
    | none =>
      rcases hB f hfF hne with h | ⟨v, hv⟩
      · exact Or.inl h
      · rcases List.mem_cons.mp hv with hv1 | hv2
        · exfalso
          have : (some v : Option Val) = none := congrArg Prod.snd hv1
          simp at this
        · exact Or.inr ⟨v, hv2⟩
    | some w =>
      by_cases hqf : dget q f = none
      · by_cases hk1 : f = ek
        · subst hk1
          have hmem : (f, some w) ∈ s := by
            rw [hsplit]; exact List.mem_append.mpr (Or.inr (List.mem_cons_self _ _))
          have hsf : dget s f = some w := dget_eq_of_mem_nodup s f (some w) hnd hmem
          have h1 : dget s f ≠ none := by rw [hsf]; simp
          obtain ⟨v, hv⟩ := exists_mem_of_dget_ne_none s (baseOf f) (hs f hfF h1)
          rw [hsplit] at hv
          rcases List.mem_append.mp hv with hvp | hvr
          · exact Or.inl (dget_mergeStep_ne_none s q _ _ (hA _ _ hvp))
          · rcases List.mem_cons.mp hvr with hv1 | hv2
            · exfalso
              exact flag_base_ne_self f hfF (congrArg Prod.fst hv1)
            · exact Or.inr ⟨v, hv2⟩
        · by_cases hk2 : f = ek ++ "_Flag"
          · have hekbase : ek = baseOf f :=
              append_flag_right_cancel ek (baseOf f)
                (hk2.symm.trans (flag_base_append f hfF).symm)
            left
            show dget (mergeFlagPart s (mergeValuePart q ek w) ek) (baseOf f) ≠ none
            rw [← hekbase]
            exact mergeFlagPart_ne_none s _ ek ek (mergeValuePart_self_ne_none q ek w)
          · exfalso
            rw [dget_mergeStep_other s q (ek, some w) f hk1 hk2] at hne
            exact hne hqf
      · rcases hB f hfF hqf with hbase | ⟨v, hv⟩
        · exact Or.inl (dget_mergeStep_ne_none s q _ _ hbase)
        · rcases List.mem_cons.mp hv with hv1 | hv2
          · have hek : baseOf f = ek := congrArg Prod.fst hv1
            left
            show dget (mergeFlagPart s (mergeValuePart q ek w) ek) (baseOf f) ≠ none
            rw [hek]
            exact mergeFlagPart_ne_none s _ ek ek (mergeValuePart_self_ne_none q ek w)
          · exact Or.inr ⟨v, hv2⟩

theorem foldl_mergeStep_inv (s : Dict) (hnd : (s.map Prod.fst).Nodup)
    (hs : FlagInvariant s) :
    ∀ (rem proc : List (String × Option Val)) (q : Dict),
      s = proc ++ rem → InvA q proc → InvB q rem →
      FlagInvariant (rem.foldl (mergeStep s) q) := by
  intro rem
  induction rem with
  | nil =>
    intro proc q hsplit hA hB f hfF hne
    rcases hB f hfF hne with h | ⟨v, hv⟩
    · exact h
    · simp at hv
  | cons e rest ih =>
    intro proc q hsplit hA hB
    rw [List.foldl_cons]
    have step := mergeStep_inv s hnd hs proc rest e hsplit q hA hB
    exact ih (proc ++ [e]) (mergeStep s q e)
      (by rw [hsplit]; simp) step.1 step.2

theorem mergeIntoPatient_flagInv (p s : Dict) (hp : FlagInvariant p)
    (hs : FlagInvariant s) (hnd : (s.map Prod.fst).Nodup) :
    FlagInvariant (mergeIntoPatient p s) := by
  unfold mergeIntoPatient
  refine foldl_mergeStep_inv s hnd hs s [] p rfl ?_ ?_
  · intro k w h; simp at h
  · intro f hfF hne
    exact Or.inl (hp f hfF hne)

/-- C5 (amended): the pairing invariant is preserved by any sequence of
merges, provided each merged tier output itself never carries a non-null
`_Flag` key without a non-null paired value key (with distinct keys, as a
parsed JSON object has).  The counterexample shows the unamended claim fails
for a tier output carrying only a flag. -/
theorem c5_flag_invariant_preserved :
    ∀ (patient : Dict) (sources : List Dict),
      FlagInvariant patient →
      (∀ s ∈ sources, FlagInvariant s ∧ (s.map Prod.fst).Nodup) →
      FlagInvariant (sources.foldl mergeIntoPatient patient) := by
  intro patient sources hp hs
  induction sources generalizing patient with
  | nil => exact hp
  | cons s t ih =>
    exact ih (mergeIntoPatient patient s)
      (mergeIntoPatient_flagInv patient s hp (hs s (List.mem_cons_self s t)).1
        (hs s (List.mem_cons_self s t)).2)
      (fun x hx => hs x (List.mem_cons_of_mem s hx))

/-- C5 counterexample to the claim as stated: merging a tier output that
carries `Haemoglobin_Flag` without `Haemoglobin` leaves the flag non-null
while the paired value field is still null. -/
theorem c5_flag_without_value_cex :
    dget (mergeIntoPatient emptyPatient
        [("Haemoglobin_Flag", some (.str "HIGH"))]) "Haemoglobin_Flag" =
      some (.str "HIGH") ∧
    dget (mergeIntoPatient emptyPatient
        [("Haemoglobin_Flag", some (.str "HIGH"))]) "Haemoglobin" = none ∧
    "Haemoglobin_Flag" ∈ FLAG_FIELDS ∧
    baseOf "Haemoglobin_Flag" = "Haemoglobin" := by
  refine ⟨by decide, by decide, by decide, by decide⟩

theorem c5_flag_invariant_preserved_witness :
    FlagInvariant
      ([[("Haemoglobin", some (Val.num 12.6)), ("Haemoglobin_Flag", some (.str "LOW"))]].foldl
        mergeIntoPatient emptyPatient) := by
  apply c5_flag_invariant_preserved emptyPatient
    [[("Haemoglobin", some (Val.num 12.6)), ("Haemoglobin_Flag", some (.str "LOW"))]]
  · unfold FlagInvariant; decide
  · intro s hs
    have : s = [("Haemoglobin", some (Val.num 12.6)), ("Haemoglobin_Flag", some (.str "LOW"))] := by
      simpa using hs
    subst this
    exact ⟨by unfold FlagInvariant; decide, by decide⟩

theorem c2_merge_first_writer_wins_witness :
    dget ([[("Haemoglobin", some (.num 13))]].foldl mergeIntoPatient
        (dset emptyPatient "Haemoglobin" (some (.num 12.6)))) "Haemoglobin" =
      some (.num 12.6) ∧
    dget (mergeIntoPatient (dset emptyPatient "Remarks" (some (.str "stable")))
        [("Remarks", some (.str "improving"))]) "Remarks" =
      some (.str "stable | improving") := by
  constructor
  · exact c2_merge_first_writer_wins.1
      (dset emptyPatient "Haemoglobin" (some (.num 12.6)))
      [[("Haemoglobin", some (.num 13))]] "Haemoglobin" (.num 12.6)
      (by decide) (by with_unfolding_all rfl)
  · have := c2_merge_first_writer_wins.2
      (dset emptyPatient "Remarks" (some (.str "stable")))
      [("Remarks", some (.str "improving"))] "Remarks" "stable" "improving"
      (by decide) (by decide) (by decide) (by decide)
    rw [this]
    decide

/-! ## C9 — local recognition confidence -/

/-- The kept-token confidences of `_ocr_with_tesseract` are exactly the
spec's per-recognized-token confidences. -/
theorem kept_confs (data : List TessToken) :
    ((data.filterMap (fun t =>
        let word := stripS t.text
        if t.conf = -1 ∨ word = "" then none
        else some (⟨t.blockNum, t.parNum, t.lineNum, word,
          (t.conf : ℚ) / 100⟩ : KeptTok))).map (fun e => e.conf)) =
      data.filterMap (fun t =>
        if t.conf = -1 ∨ stripS t.text = "" then none
        else some ((t.conf : ℚ) / 100)) := by
  rw [List.map_filterMap]
  apply List.filterMap_congr
  intro t _
  by_cases h : t.conf = -1 ∨ stripS t.text = "" <;> simp [h]

/-- C9 (amended): recognition returns the mean of per-recognized-token
confidences ROUNDED to four decimal places (`round(mean, 4)`), while
`above_threshold` is computed from the UNROUNDED mean; an empty token set
yields confidence 0; a recognition failure returns
`text = "", confidence = 0, above_threshold = false` without raising. -/
theorem c9_ocr_confidence_spec :
    (∀ data : List TessToken,
      (ocrPageImage (some data)).confidence = roundQ4 (specMeanConfidence data) ∧
      ((ocrPageImage (some data)).aboveThreshold = true ↔
        OCR_CONFIDENCE_THRESHOLD ≤ specMeanConfidence data)) ∧
    (ocrPageImage (some [])).confidence = 0 ∧
    ocrPageImage none = ⟨"", 0, "none", false⟩ := by
  refine ⟨?_, by with_unfolding_all rfl, rfl⟩
  intro data
  show (ocrWithTesseract data).confidence = _ ∧
    ((ocrWithTesseract data).aboveThreshold = true ↔ _)
  have hmean :
      (if (((data.filterMap (fun t =>
          let word := stripS t.text
          if t.conf = -1 ∨ word = "" then none
          else some (⟨t.blockNum, t.parNum, t.lineNum, word,
            (t.conf : ℚ) / 100⟩ : KeptTok))).map (fun e => e.conf))).isEmpty then (0 : ℚ)
       else (((data.filterMap (fun t =>
          let word := stripS t.text
          if t.conf = -1 ∨ word = "" then none
          else some (⟨t.blockNum, t.parNum, t.lineNum, word,
            (t.conf : ℚ) / 100⟩ : KeptTok))).map (fun e => e.conf))).sum / ((((data.filterMap (fun t =>
          let word := stripS t.text
          if t.conf = -1 ∨ word = "" then none
          else some (⟨t.blockNum, t.parNum, t.lineNum, word,
            (t.conf : ℚ) / 100⟩ : KeptTok))).map (fun e => e.conf))).length : ℚ)) =
        specMeanConfidence data := by
    unfold specMeanConfidence
    rw [kept_confs]
  constructor
  · exact congrArg roundQ4 hmean
  · have h3 : (ocrWithTesseract data).aboveThreshold =
        decide (specMeanConfidence data ≥ OCR_CONFIDENCE_THRESHOLD) :=
      congrArg (fun m => decide (m ≥ OCR_CONFIDENCE_THRESHOLD)) hmean
    rw [h3]
    exact decide_eq_true_iff.trans ge_iff_le

/-- C9 counterexample to the claim as stated: three recognized tokens with
Tesseract confidences 1, 0, 0 give mean 1/300, but the returned confidence is
the rounded 0.0033 ≠ 1/300. -/
theorem c9_confidence_rounding_cex :
    (ocrPageImage (some
        [⟨"a", 1, 0, 0, 0⟩, ⟨"b", 0, 0, 0, 0⟩, ⟨"c", 0, 0, 0, 0⟩])).confidence ≠
      specMeanConfidence
        [⟨"a", 1, 0, 0, 0⟩, ⟨"b", 0, 0, 0, 0⟩, ⟨"c", 0, 0, 0, 0⟩] := by
  have h1 : (ocrPageImage (some
      [⟨"a", 1, 0, 0, 0⟩, ⟨"b", 0, 0, 0, 0⟩, ⟨"c", 0, 0, 0, 0⟩])).confidence =
      33 / 10000 := by with_unfolding_all rfl
  have h2 : specMeanConfidence
      [⟨"a", 1, 0, 0, 0⟩, ⟨"b", 0, 0, 0, 0⟩, ⟨"c", 0, 0, 0, 0⟩] = 1 / 300 := by
    with_unfolding_all rfl
  rw [h1, h2]
  norm_num

/-! ## C3 — pruned-empty text chunk: zero cost, but the tag is overwritten -/

/-- C3 evaluated at the failing input: with null snapshot `["MCV"]` the text
chunk's field list prunes to empty, so no remote call fires and zero tokens
are incurred (the strict zero-cost half of the claim holds), and `_call_chunk`
does tag the page `SKIPPED_NO_NULLS` — but the Step-4 result-merge loop then
re-tags every page of the (non-exception) outcome `AI_HANDLED`, so the page
does NOT end with handler `SKIPPED_NO_NULLS` as the claim and the code's own
docstring state. -/
theorem c3_pruned_chunk_zero_cost_but_retagged :
    (callChunk ["MCV"] c3Oracle [c3Page] "text").called = false ∧
    (callChunk ["MCV"] c3Oracle [c3Page] "text").inTok = 0 ∧
    (callChunk ["MCV"] c3Oracle [c3Page] "text").outTok = 0 ∧
    ((callChunk ["MCV"] c3Oracle [c3Page] "text").pages.map (·.handlers)) =
      [["SKIPPED_NO_NULLS"]] ∧
    ((mergeOutcome ⟨emptyPatient, [], 0, 0, []⟩
        (callChunk ["MCV"] c3Oracle [c3Page] "text")).pagesOut.map (·.handlers)) =
      [["SKIPPED_NO_NULLS", "AI_HANDLED"]] ∧
    (mergeOutcome ⟨emptyPatient, [], 0, 0, []⟩
        (callChunk ["MCV"] c3Oracle [c3Page] "text")).inTok = 0 ∧
    (mergeOutcome ⟨emptyPatient, [], 0, 0, []⟩
        (callChunk ["MCV"] c3Oracle [c3Page] "text")).outTok = 0 := by
  exact ⟨by decide, by decide, by decide, by decide, by decide, by decide, by decide⟩

/-! ## C4 — chunk building -/

theorem chunkFuel_length {α : Type} (fuel : Nat) (xs : List α) (n : Nat)
    (hn : 0 < n) (hf : xs.length ≤ fuel) :
    (chunkFuel fuel xs n).length = (xs.length + n - 1) / n := by
  induction fuel generalizing xs with
  | zero =>
    have hx : xs = [] := List.length_eq_zero.mp (Nat.le_zero.mp hf)
    subst hx
    show (0 : Nat) = (0 + n - 1) / n
    rw [Nat.zero_add]
    exact (Nat.div_eq_of_lt (by omega)).symm
  | succ fuel ih =>
    cases xs with
    | nil =>
      show (0 : Nat) = (0 + n - 1) / n
      rw [Nat.zero_add]
      exact (Nat.div_eq_of_lt (by omega)).symm
    | cons x t =>
      show ((x :: t).take n :: chunkFuel fuel ((x :: t).drop n) n).length = _
      rw [List.length_cons]
      have hdrop : ((x :: t).drop n).length = (x :: t).length - n :=
        List.length_drop n (x :: t)
      have hrec := ih ((x :: t).drop n)
        (by rw [hdrop, List.length_cons]; simp at hf; omega)
      rw [hrec, hdrop, List.length_cons]
      rcases le_or_lt n (t.length + 1) with h | h
      · have h1 : t.length + 1 - n + n - 1 = t.length := by omega
        have h2 : t.length + 1 + n - 1 = t.length + n := by omega
        rw [h1, h2, Nat.add_div_right _ hn]
      · have h1 : t.length + 1 - n + n - 1 = n - 1 := by omega
        have h2 : t.length + 1 + n - 1 = t.length + n := by omega
        rw [h1, h2, Nat.add_div_right _ hn,
          Nat.div_eq_of_lt (show n - 1 < n by omega),
          Nat.div_eq_of_lt (show t.length < n by omega)]

theorem chunkEvery_length {α : Type} (xs : List α) (n : Nat) (hn : 0 < n) :
    (chunkEvery xs n).length = (xs.length + n - 1) / n := by
  unfold chunkEvery
  rw [if_neg (by omega : ¬n = 0)]
  exact chunkFuel_length xs.length xs n hn le_rfl

theorem chunkFuel_flatten {α : Type} (fuel : Nat) (xs : List α) (n : Nat)
    (hn : 0 < n) (hf : xs.length ≤ fuel) :
    (chunkFuel fuel xs n).flatten = xs := by
  induction fuel generalizing xs with
  | zero =>
    have hx : xs = [] := List.length_eq_zero.mp (Nat.le_zero.mp hf)
    subst hx; rfl
  | succ fuel ih =>
    cases xs with
    | nil => rfl
    | cons x t =>
      show ((x :: t).take n :: chunkFuel fuel ((x :: t).drop n) n).flatten = _
      rw [List.flatten_cons,
        ih ((x :: t).drop n) (by rw [List.length_drop, List.length_cons]; simp at hf; omega),
        List.take_append_drop]

theorem chunkEvery_flatten {α : Type} (xs : List α) (n : Nat) (hn : 0 < n) :
    (chunkEvery xs n).flatten = xs := by
  unfold chunkEvery
  rw [if_neg (by omega : ¬n = 0)]
  exact chunkFuel_flatten xs.length xs n hn le_rfl

theorem mem_of_mem_chunkEvery {α : Type} (xs : List α) (n : Nat) (hn : 0 < n)
    (c : List α) (hc : c ∈ chunkEvery xs n) (a : α) (ha : a ∈ c) : a ∈ xs := by
  rw [← chunkEvery_flatten xs n hn]
  exact List.mem_flatten.mpr ⟨c, hc, ha⟩

theorem chunkFuel_ne_nil {α : Type} (fuel : Nat) (xs : List α) (n : Nat)
    (hn : 0 < n) (c : List α) (hc : c ∈ chunkFuel fuel xs n) : c ≠ [] := by
  induction fuel generalizing xs with
  | zero => simp [chunkFuel] at hc
  | succ fuel ih =>
    cases xs with
    | nil => simp [chunkFuel] at hc
    | cons x t =>
      have : c = (x :: t).take n ∨ c ∈ chunkFuel fuel ((x :: t).drop n) n := by
        simpa [chunkFuel] using hc
      rcases this with h | h
      · subst h
        cases n with
        | zero => omega
        | succ m => simp
      · exact ih ((x :: t).drop n) h

theorem chunkEvery_ne_nil {α : Type} (xs : List α) (n : Nat) (hn : 0 < n)
    (c : List α) (hc : c ∈ chunkEvery xs n) : c ≠ [] := by
  unfold chunkEvery at hc
  rw [if_neg (by omega : ¬n = 0)] at hc
  exact chunkFuel_ne_nil xs.length xs n hn c hc

theorem callChunk_called_image (snapshot : List String) (ai : Oracle)
    (pages : List Page) (hne : ∃ p ∈ pages, p.hasImage) :
    (callChunk snapshot ai pages "image").called = true := by
  unfold callChunk
  rw [if_pos rfl]
  have hf : (pages.filter (·.hasImage)).isEmpty ≠ true := by
    obtain ⟨p, hp, hi⟩ := hne
    intro hemp
    rw [List.isEmpty_iff] at hemp
    have hpm : p ∈ pages.filter (·.hasImage) := List.mem_filter.mpr ⟨hp, hi⟩
    rw [hemp] at hpm
    simp at hpm
  rw [if_neg hf]

theorem callChunk_called_text (snapshot : List String) (ai : Oracle)
    (pages : List Page)
    (hne : pruneNullFieldsForChunk snapshot pages "text" ≠ []) :
    (callChunk snapshot ai pages "text").called = true := by
  unfold callChunk
  rw [if_neg (by decide : ¬("text" : String) = "image")]
  rw [if_neg (by rwa [ne_eq, ← List.isEmpty_iff] at hne)]

/-- C4: chunk building partitions the pending pages by mode and yields
exactly `⌈i/3⌉ + ⌈t/4⌉` chunks (in ℕ, `⌈i/3⌉ = (i+2)/3`); when no chunk is
skipped (every image chunk has a renderable page, every text chunk's pruned
field list is non-empty — the cases C3's skip rule carves out), each chunk
fires exactly one remote call, so exactly `⌈i/3⌉ + ⌈t/4⌉` calls are made. -/
theorem c4_chunk_partition (pending : List (Page × String))
    (snapshot : List String) (ai : Oracle) (i t : Nat)
    (hi : (pending.filterMap
      (fun e => if e.2 = "image" then some e.1 else none)).length = i)
    (ht : (pending.filterMap
      (fun e => if e.2 = "text" then some e.1 else none)).length = t) :
    (buildChunks pending IMAGE_CHUNK_SIZE TEXT_CHUNK_SIZE).length =
      (i + 2) / 3 + (t + 3) / 4 ∧
    ((∀ e ∈ pending, e.2 = "image" → e.1.hasImage) →
     (∀ c ∈ buildChunks pending IMAGE_CHUNK_SIZE TEXT_CHUNK_SIZE,
        c.2 = "text" → pruneNullFieldsForChunk snapshot c.1 "text" ≠ []) →
     ((buildChunks pending IMAGE_CHUNK_SIZE TEXT_CHUNK_SIZE).map
        (fun c => callChunk snapshot ai c.1 c.2)).countP (·.called) =
       (i + 2) / 3 + (t + 3) / 4) := by
  have hlen : (buildChunks pending IMAGE_CHUNK_SIZE TEXT_CHUNK_SIZE).length =
      (i + 2) / 3 + (t + 3) / 4 := by
    unfold buildChunks
    rw [List.length_append, List.length_map, List.length_map,
      chunkEvery_length _ _ (by decide), chunkEvery_length _ _ (by decide),
      hi, ht]
    norm_num [IMAGE_CHUNK_SIZE, TEXT_CHUNK_SIZE]
  refine ⟨hlen, fun himg hprune => ?_⟩
  rw [List.countP_map]
  have hall : ∀ c ∈ buildChunks pending IMAGE_CHUNK_SIZE TEXT_CHUNK_SIZE,
      ((fun c => callChunk snapshot ai c.1 c.2) c).called = true := by
    intro c hc
    unfold buildChunks at hc
    rcases List.mem_append.mp hc with hcimg | hctxt
    · obtain ⟨c1, hc1, hceq⟩ := List.mem_map.mp hcimg
      subst hceq
      apply callChunk_called_image
      have hne := chunkEvery_ne_nil _ _ (by decide) c1 hc1
      obtain ⟨p, hp⟩ := List.exists_mem_of_ne_nil c1 hne
      refine ⟨p, hp, ?_⟩
      have hpi := mem_of_mem_chunkEvery _ _ (by decide) c1 hc1 p hp
      obtain ⟨e, he, hfe⟩ := List.mem_filterMap.mp hpi
      by_cases hmode : e.2 = "image"
      · rw [if_pos hmode] at hfe
        have : e.1 = p := by injection hfe
        exact this ▸ himg e he hmode
      · rw [if_neg hmode] at hfe
        cases hfe
    · obtain ⟨c1, hc1, hceq⟩ := List.mem_map.mp hctxt
      subst hceq
      exact callChunk_called_text snapshot ai c1 (hprune (c1, "text") hc rfl)
  have hcount : List.countP (fun c => (callChunk snapshot ai c.1 c.2).called)
      (buildChunks pending IMAGE_CHUNK_SIZE TEXT_CHUNK_SIZE) =
      (buildChunks pending IMAGE_CHUNK_SIZE TEXT_CHUNK_SIZE).length :=
    List.countP_eq_length.mpr hall
  exact hcount.trans hlen

/-- C4 witness: 6 image-mode plus 3 text-mode pending pages make exactly 3
chunks and exactly 3 remote calls. -/
theorem c4_chunk_partition_witness :
    (buildChunks
        ((List.range 6).map (fun n =>
          ({ pageNumber := n + 1, mode := "ocr", hasImage := true }, "image")) ++
         (List.range 3).map (fun n =>
          ({ pageNumber := n + 7, mode := "text", rawText := "x" }, "text")))
        IMAGE_CHUNK_SIZE TEXT_CHUNK_SIZE).length = 3 ∧
    ((buildChunks
        ((List.range 6).map (fun n =>
          ({ pageNumber := n + 1, mode := "ocr", hasImage := true }, "image")) ++
         (List.range 3).map (fun n =>
          ({ pageNumber := n + 7, mode := "text", rawText := "x" }, "text")))
        IMAGE_CHUNK_SIZE TEXT_CHUNK_SIZE).map
      (fun c => callChunk ["PatientName"] c3Oracle c.1 c.2)).countP (·.called) = 3 := by
  have h := c4_chunk_partition
    ((List.range 6).map (fun n =>
      ({ pageNumber := n + 1, mode := "ocr", hasImage := true }, "image")) ++
     (List.range 3).map (fun n =>
      ({ pageNumber := n + 7, mode := "text", rawText := "x" }, "text")))
    ["PatientName"] c3Oracle 6 3 (by decide) (by decide)
  exact ⟨h.1, h.2 (by decide) (by decide)⟩

/-! ## C7 — key set of the deterministic extractor -/


theorem extractWithRegex_keys (text : List Char) :
    dkeys (extractWithRegex text) = regexResultKeys := rfl

theorem hasKey_eq_keys_any (d : Dict) (k : String) :
    hasKey d k = (dkeys d).any (· == k) := by
  unfold hasKey dkeys
  induction d with
  | nil => rfl
  | cons e t ih =>
    simp only [List.any_cons, List.map_cons]
    rw [ih]

/-- C7 (amended): every canonical field EXCEPT the two meta columns
(`Extraction_Note`, `Data_Quality`) is present as a key of every
`extract_with_regex` result, unmatched fields explicitly null. -/
theorem c7_extract_keys_present (text : List Char) (col : String)
    (h1 : col ∈ MASTER_COLUMNS) (h2 : col ∉ metaCols) :
    hasKey (extractWithRegex text) col = true := by
  have hall : ∀ c ∈ MASTER_COLUMNS, c ∉ metaCols →
      regexResultKeys.any (· == c) = true := by decide
  rw [hasKey_eq_keys_any, extractWithRegex_keys]
  exact hall col h1 h2

/-- C7 counterexample to the claim as stated: the two meta columns of the
canonical field set are never keys of an `extract_with_regex` result. -/
theorem c7_meta_keys_missing_cex :
    hasKey (extractWithRegex "".data) "Extraction_Note" = false ∧
    hasKey (extractWithRegex "".data) "Data_Quality" = false ∧
    "Extraction_Note" ∈ MASTER_COLUMNS ∧ "Data_Quality" ∈ MASTER_COLUMNS := by
  refine ⟨?_, ?_, by decide, by decide⟩ <;>
  · rw [hasKey_eq_keys_any, extractWithRegex_keys]
    decide

theorem c7_extract_keys_present_witness :
    hasKey (extractWithRegex "".data) "Haemoglobin" = true :=
  c7_extract_keys_present "".data "Haemoglobin" (by decide) (by decide)

/-! ## C10 — value shapes of the deterministic extractor -/


theorem normalizeFlag_cases (s : String) :
    normalizeFlag s = none ∨ normalizeFlag s = some "HIGH" ∨
      normalizeFlag s = some "LOW" := by
  unfold normalizeFlag
  dsimp only
  split_ifs
  · exact Or.inl rfl
  · exact Or.inr (Or.inl rfl)
  · exact Or.inr (Or.inr rfl)
  · exact Or.inl rfl

theorem evf_flag_cases (text : List Char) (pat : RE) :
    (extractValueAndFlag text pat).2 = none ∨
    (extractValueAndFlag text pat).2 = some "HIGH" ∨
    (extractValueAndFlag text pat).2 = some "LOW" := by
  unfold extractValueAndFlag
  repeat' (first | split | dsimp only)
  all_goals first
    | (left; rfl)
    | (exact normalizeFlag_cases _)

/-- C10: in every `extract_with_regex` result, a `_Flag` key holds exactly
`"HIGH"`, `"LOW"` or null, and a numeric-pattern field holds a number or
null — a value and its flag are never combined into one string. -/
theorem c10_flag_and_numeric_shape (text : List Char) (k : String)
    (v : Option Val) (hmem : (k, v) ∈ extractWithRegex text) :
    (endsWithS k "_Flag" = true →
      v = none ∨ v = some (.str "HIGH") ∨ v = some (.str "LOW")) ∧
    (k ∈ numericPatternFields →
      v = none ∨ ∃ q : ℚ, v = some (.num q)) := by
  have hA1 : ∀ x ∈ numericPatterns, endsWithS x.2 "_Flag" = false := by decide
  have hA2 : ∀ x ∈ numericPatterns,
      (x.2 ++ "_Flag") ∉ numericPatternFields := by decide
  have hB1 : ∀ x ∈ patientPatterns, endsWithS x.2 "_Flag" = false := by decide
  unfold extractWithRegex at hmem
  rcases List.mem_append.mp hmem with hAB | hC
  · rcases List.mem_append.mp hAB with hA | hB
    · obtain ⟨pf, hpf, hin⟩ := List.mem_flatMap.mp hA
      rcases List.mem_cons.mp hin with hval | hflag
      · have hk : pf.2 = k := congrArg Prod.fst hval.symm
        have hv : ((extractValueAndFlag text pf.1).1.map Val.num : Option Val) = v :=
          congrArg Prod.snd hval.symm
        constructor
        · intro hend
          rw [← hk] at hend
          rw [hA1 pf hpf] at hend
          cases hend
        · intro _
          rw [← hv]
          cases (extractValueAndFlag text pf.1).1 with
          | none => exact Or.inl rfl
          | some q => exact Or.inr ⟨q, rfl⟩
      · have hflag' : (k, v) = (pf.2 ++ "_Flag",
            ((extractValueAndFlag text pf.1).2.map Val.str : Option Val)) := by
          simpa using hflag
        have hk : k = pf.2 ++ "_Flag" := congrArg Prod.fst hflag'
        have hv : v = ((extractValueAndFlag text pf.1).2.map Val.str : Option Val) :=
          congrArg Prod.snd hflag'
        constructor
        · intro _
          rw [hv]
          rcases evf_flag_cases text pf.1 with h | h | h <;> rw [h]
          · exact Or.inl rfl
          · exact Or.inr (Or.inl rfl)
          · exact Or.inr (Or.inr rfl)
        · intro hmemf
          rw [hk] at hmemf
          exact absurd hmemf (hA2 pf hpf)
    · obtain ⟨pf, hpf, hin⟩ := List.mem_map.mp hB
      have hk : pf.2 = k := congrArg Prod.fst hin
      have hv : ((extractValueAndFlag text pf.1).1.map Val.num : Option Val) = v :=
        congrArg Prod.snd hin
      constructor
      · intro hend
        rw [← hk] at hend
        rw [hB1 pf hpf] at hend
        cases hend
      · intro _
        rw [← hv]
        cases (extractValueAndFlag text pf.1).1 with
        | none => exact Or.inl rfl
        | some q => exact Or.inr ⟨q, rfl⟩
  · have hkmem : k ∈ ["BP", "PatientName", "Gender", "Blood_Group", "Rh_Type",
        "EmpCode", "UHIDNo", "Mobile", "Remarks",
        "Urine_Colour", "Urine_Transparency", "Urine_PH",
        "Urine_Protein_Albumin", "Urine_Glucose",
        "Urine_Bilirubin", "Urine_Blood", "Urine_RBC",
        "Urine_Casts", "Urine_Crystals", "Urine_Specific_Gravity",
        "AUDIOMETRY", "PFT", "XRAY", "Suggestion"] := by
      have := List.mem_map_of_mem Prod.fst hC
      simpa using this
    have hCfacts : ∀ key ∈ (["BP", "PatientName", "Gender", "Blood_Group",
        "Rh_Type", "EmpCode", "UHIDNo", "Mobile", "Remarks",
        "Urine_Colour", "Urine_Transparency", "Urine_PH",
        "Urine_Protein_Albumin", "Urine_Glucose",
        "Urine_Bilirubin", "Urine_Blood", "Urine_RBC",
        "Urine_Casts", "Urine_Crystals", "Urine_Specific_Gravity",
        "AUDIOMETRY", "PFT", "XRAY", "Suggestion"] : List String),
        endsWithS key "_Flag" = false ∧ key ∉ numericPatternFields := by decide
    obtain ⟨hend, hnum⟩ := hCfacts k hkmem
    constructor
    · intro h
      rw [hend] at h
      cases h
    · intro h
      exact absurd h hnum

theorem c10_flag_and_numeric_shape_witness :
    (some (Val.str "LOW") = none ∨ some (Val.str "LOW") = some (.str "HIGH") ∨
      some (Val.str "LOW") = some (.str "LOW")) ∧
    (some (Val.num 12.6) = none ∨ ∃ q : ℚ, some (Val.num 12.6) = some (Val.num q)) := by
  constructor
  · exact (c10_flag_and_numeric_shape "Haemoglobin: 12.6 L".data "Haemoglobin_Flag"
      (some (.str "LOW")) (by with_unfolding_all decide)).1 (by decide)
  · exact (c10_flag_and_numeric_shape "Haemoglobin: 12.6 L".data "Haemoglobin"
      (some (.num 12.6)) (by with_unfolding_all decide)).2 (by decide)

/-! ## C8 — embedded-flag splitting in the validator's numeric coercion -/

theorem takeWhile_append_stop (p : Char → Bool) (l1 l2 : List Char) (c : Char)
    (h1 : ∀ a ∈ l1, p a = true) (h2 : p c = false) :
    (l1 ++ c :: l2).takeWhile p = l1 := by
  induction l1 with
  | nil => simp [List.takeWhile_cons, h2]
  | cons a t ih =>
    rw [List.cons_append, List.takeWhile_cons, h1 a (List.mem_cons_self a t)]
    rw [if_pos rfl, ih (fun x hx => h1 x (List.mem_cons_of_mem a hx))]

/-- No numeric field is of the form `g ++ "_Flag"`. -/
theorem numeric_no_flag_suffix (f : String) (hf : f ∈ NUMERIC_FIELDS)
    (g : String) : f ≠ g ++ "_Flag" := by
  intro heq
  have hd : f.data = g.data ++ "_Flag".data := by rw [heq]; rfl
  have hdrop : f.data.drop (f.data.length - 5) = "_Flag".data := by
    have h5 : "_Flag".data.length = 5 := rfl
    rw [hd, List.length_append, h5, Nat.add_sub_cancel, List.drop_left]
  have hall : ∀ x ∈ NUMERIC_FIELDS,
      x.data.drop (x.data.length - 5) ≠ "_Flag".data := by decide
  exact hall f hf hdrop

/-- The step-4 loop body for field `g` does not touch any key other than
`g` and `g ++ "_Flag"`. -/
theorem dget_step4_other (d : Dict) (g k : String) (h1 : k ≠ g)
    (h2 : k ≠ g ++ "_Flag") : dget (step4 d g) k = dget d k := by
  unfold step4
  dsimp only
  cases hc : (coerceNumeric (dget d g)).2 with
  | none => exact dget_dset_ne d g k _ h1
  | some hint =>
    split_ifs with hcond
    · rw [dget_dset_ne _ _ k _ h2, dget_dset_ne _ _ k _ h1]
    · exact dget_dset_ne d g k _ h1

theorem dget_foldl_step4_other (l : List String) (d : Dict) (k : String)
    (h : ∀ g ∈ l, k ≠ g ∧ k ≠ g ++ "_Flag") :
    dget (l.foldl step4 d) k = dget d k := by
  induction l generalizing d with
  | nil => rfl
  | cons g t ih =>
    rw [List.foldl_cons,
      ih (step4 d g) (fun x hx => h x (List.mem_cons_of_mem g hx)),
      dget_step4_other d g k (h g (List.mem_cons_self g t)).1
        (h g (List.mem_cons_self g t)).2]

theorem dget_step4_self (d : Dict) (f : String) :
    dget (step4 d f) f = (coerceNumeric (dget d f)).1 := by
  unfold step4
  dsimp only
  cases hc : (coerceNumeric (dget d f)).2 with
  | none => exact dget_dset_self d f _
  | some hint =>
    split_ifs with hcond
    · rw [dget_dset_ne _ _ f _ (self_ne_append_flag f), dget_dset_self]
    · exact dget_dset_self d f _

theorem dget_step4_flag (d : Dict) (f : String) :
    dget (step4 d f) (f ++ "_Flag") =
      (match (coerceNumeric (dget d f)).2 with
       | some hint =>
         if f ++ "_Flag" ∈ FLAG_FIELDS ∧ dget d (f ++ "_Flag") = none then
           some (Val.str hint)
         else dget d (f ++ "_Flag")
       | none => dget d (f ++ "_Flag")) := by
  have hne : f ++ "_Flag" ≠ f := (self_ne_append_flag f).symm
  have hd1 : dget (dset d f (coerceNumeric (dget d f)).1) (f ++ "_Flag") =
      dget d (f ++ "_Flag") := dget_dset_ne _ _ _ _ hne
  unfold step4
  dsimp only
  cases hc : (coerceNumeric (dget d f)).2 with
  | none => exact hd1
  | some hint =>
    rw [hd1]
    split_ifs with hcond
    · exact dget_dset_self _ _ _
    · exact hd1

/-- The net effect of the whole step-4 fold on a numeric field and its
paired flag field equals the effect of that field's own iteration on the
original dict. -/
theorem dget_vStep4_parts (d : Dict) (f : String) (hf : f ∈ NUMERIC_FIELDS) :
    dget (vStep4 d) f = (coerceNumeric (dget d f)).1 ∧
    dget (vStep4 d) (f ++ "_Flag") =
      (match (coerceNumeric (dget d f)).2 with
       | some hint =>
         if f ++ "_Flag" ∈ FLAG_FIELDS ∧ dget d (f ++ "_Flag") = none then
           some (Val.str hint)
         else dget d (f ++ "_Flag")
       | none => dget d (f ++ "_Flag")) := by
  obtain ⟨pre, post, heq⟩ := List.append_of_mem hf
  have hnd : NUMERIC_FIELDS.Nodup := by decide
  rw [heq] at hnd
  have hsplit := List.nodup_append.mp hnd
  have hfpre : f ∉ pre := fun hmem => hsplit.2.2 hmem (List.mem_cons_self f post)
  have hfpost : f ∉ post := (List.nodup_cons.mp hsplit.2.1).1
  have hmempre : ∀ g ∈ pre, g ∈ NUMERIC_FIELDS := by
    intro g hg; rw [heq]; exact List.mem_append_left _ hg
  have hmempost : ∀ g ∈ post, g ∈ NUMERIC_FIELDS := by
    intro g hg; rw [heq]; exact List.mem_append_right _ (List.mem_cons_of_mem f hg)
  have hval1 : ∀ (l : List String), f ∉ l → (∀ g ∈ l, g ∈ NUMERIC_FIELDS) →
      ∀ g ∈ l, f ≠ g ∧ f ≠ g ++ "_Flag" := by
    intro l hfl hml g hg
    exact ⟨fun hfg => hfl (hfg ▸ hg), numeric_no_flag_suffix f hf g⟩
  have hval2 : ∀ (l : List String), f ∉ l → (∀ g ∈ l, g ∈ NUMERIC_FIELDS) →
      ∀ g ∈ l, f ++ "_Flag" ≠ g ∧ f ++ "_Flag" ≠ g ++ "_Flag" := by
    intro l hfl hml g hg
    refine ⟨(numeric_no_flag_suffix g (hml g hg) f).symm, fun h => ?_⟩
    exact hfl ((append_flag_right_cancel f g h) ▸ hg)
  unfold vStep4
  rw [heq, List.foldl_append, List.foldl_cons]
  have hpre1 : dget (pre.foldl step4 d) f = dget d f :=
    dget_foldl_step4_other pre d f (hval1 pre hfpre hmempre)
  have hpre2 : dget (pre.foldl step4 d) (f ++ "_Flag") = dget d (f ++ "_Flag") :=
    dget_foldl_step4_other pre d (f ++ "_Flag") (hval2 pre hfpre hmempre)
  have hpost1 : dget (post.foldl step4 (step4 (pre.foldl step4 d) f)) f =
      dget (step4 (pre.foldl step4 d) f) f :=
    dget_foldl_step4_other post _ f (hval1 post hfpost hmempost)
  have hpost2 :
      dget (post.foldl step4 (step4 (pre.foldl step4 d) f)) (f ++ "_Flag") =
      dget (step4 (pre.foldl step4 d) f) (f ++ "_Flag") :=
    dget_foldl_step4_other post _ (f ++ "_Flag") (hval2 post hfpost hmempost)
  constructor
  · rw [hpost1, dget_step4_self, hpre1]
  · rw [hpost2, dget_step4_flag, hpre1, hpre2]

/-- `_parse_embedded_flag` on an already-stripped string made of a
digit-or-dot run, whitespace, and a flag token. -/
theorem parseEmbeddedFlag_split (stripped numStr tok fl : String) (q : ℚ)
    (hdata : stripped.data = numStr.data ++ ' ' :: tok.data)
    (hstrip2 : stripChars (numStr.data ++ ' ' :: tok.data) =
      numStr.data ++ ' ' :: tok.data)
    (hnum1 : numStr.data ≠ [])
    (hnum2 : ∀ c ∈ numStr.data, (isDigitC c || c == '.') = true)
    (htokws : tok.data.dropWhile isWsC = tok.data)
    (hq : parsePyFloat? numStr = some q)
    (hfl : ((upperS tok = "L" ∨ upperS tok = "LOW") ∧ fl = "LOW") ∨
           ((upperS tok = "H" ∨ upperS tok = "HIGH") ∧ fl = "HIGH")) :
    parseEmbeddedFlag stripped = (some q, some fl) := by
  have htake : (numStr.data ++ ' ' :: tok.data).takeWhile
      (fun c => isDigitC c || c == '.') = numStr.data :=
    takeWhile_append_stop _ _ _ _ hnum2 (by decide)
  have hdrop : (numStr.data ++ ' ' :: tok.data).drop numStr.data.length =
      ' ' :: tok.data := List.drop_left _ _
  have hrest : (' ' :: tok.data).dropWhile isWsC = tok.data := by
    rw [List.dropWhile_cons]
    simp only [show isWsC ' ' = true from rfl, if_true]
    exact htokws
  have hEmp : numStr.data.isEmpty = false := by
    cases hN : numStr.data with
    | nil => exact absurd hN hnum1
    | cons a t => rfl
  have hTok : String.mk tok.data = tok := rfl
  have hNum : String.mk numStr.data = numStr := rfl
  unfold parseEmbeddedFlag
  dsimp only
  rw [hdata, hstrip2, htake, hdrop, hrest, hEmp, hTok, hNum]
  simp only [Bool.false_eq_true, if_false]
  rcases hfl with ⟨hL, hflv⟩ | ⟨hH, hflv⟩
  · rw [if_pos hL, hq, hflv]
  · have hnotL : ¬(upperS tok = "L" ∨ upperS tok = "LOW") := by
      rcases hH with h | h <;> rw [h] <;> decide
    rw [if_neg hnotL, if_pos hH, hq, hflv]

theorem coerceNumeric_embedded (s : String) (q : ℚ) (fl : String)
    (h : parseEmbeddedFlag (stripS s) = (some q, some fl))
    (hne : stripS s ≠ "") :
    coerceNumeric (some (Val.str s)) = (some (Val.num q), some fl) := by
  unfold coerceNumeric
  dsimp only
  rw [if_neg hne, h]

theorem coerceNumeric_unparseable (s : String)
    (h1 : (parseEmbeddedFlag (stripS s)).1 = none)
    (h2 : parsePyFloat? (stripS s) = none) :
    coerceNumeric (some (Val.str s)) = (none, none) := by
  unfold coerceNumeric
  dsimp only
  by_cases hs : stripS s = ""
  · rw [if_pos hs]
  · rw [if_neg hs]
    rw [show parseEmbeddedFlag (stripS s) =
      (none, (parseEmbeddedFlag (stripS s)).2) from by rw [← h1]]
    rw [h2]

/-- C8: for a numeric canonical field holding a string of a digit-run value
followed by a trailing flag token, the validator's coercion step sets the
field to the parsed number and, when the paired flag field exists and is
null, sets that flag field to LOW or HIGH accordingly; and a numeric-field
string that parses neither as an embedded-flag pair nor as a plain number
is set to null. -/
theorem c8_embedded_flag_split :
    (∀ (d : Dict) (f s numStr tok fl : String) (q : ℚ),
      f ∈ NUMERIC_FIELDS →
      dget d f = some (Val.str s) →
      stripChars s.data = numStr.data ++ ' ' :: tok.data →
      stripChars (numStr.data ++ ' ' :: tok.data) =
        numStr.data ++ ' ' :: tok.data →
      numStr.data ≠ [] →
      (∀ c ∈ numStr.data, (isDigitC c || c == '.') = true) →
      tok.data.dropWhile isWsC = tok.data →
      parsePyFloat? numStr = some q →
      (((upperS tok = "L" ∨ upperS tok = "LOW") ∧ fl = "LOW") ∨
       ((upperS tok = "H" ∨ upperS tok = "HIGH") ∧ fl = "HIGH")) →
      dget (vStep4 d) f = some (Val.num q) ∧
      (f ++ "_Flag" ∈ FLAG_FIELDS → dget d (f ++ "_Flag") = none →
        dget (vStep4 d) (f ++ "_Flag") = some (Val.str fl))) ∧
    (∀ (d : Dict) (f s : String),
      f ∈ NUMERIC_FIELDS →
      dget d f = some (Val.str s) →
      (parseEmbeddedFlag (stripS s)).1 = none →
      parsePyFloat? (stripS s) = none →
      dget (vStep4 d) f = none) := by
  constructor
  · intro d f s numStr tok fl q hf hval hstrip hstrip2 hnum1 hnum2 htokws hq hfl
    have hpe : parseEmbeddedFlag (stripS s) = (some q, some fl) :=
      parseEmbeddedFlag_split (stripS s) numStr tok fl q hstrip hstrip2 hnum1
        hnum2 htokws hq hfl
    have hsne : stripS s ≠ "" := by
      intro h0
      have h2 : stripChars s.data = [] := congrArg String.data h0
      rw [hstrip] at h2
      simp at h2
    have hco : coerceNumeric (some (Val.str s)) = (some (Val.num q), some fl) :=
      coerceNumeric_embedded s q fl hpe hsne
    have hparts := dget_vStep4_parts d f hf
    constructor
    · rw [hparts.1, hval, hco]
    · intro hpair hnull
      rw [hparts.2, hval, hco]
      exact if_pos ⟨hpair, hnull⟩
  · intro d f s hf hval h1 h2
    have hco := coerceNumeric_unparseable s h1 h2
    have hparts := dget_vStep4_parts d f hf
    rw [hparts.1, hval, hco]

theorem c8_embedded_flag_split_witness :
    dget (vStep4 [("Haemoglobin", some (Val.str "12.6 L"))]) "Haemoglobin" =
      some (Val.num (63/5)) ∧
    dget (vStep4 [("Haemoglobin", some (Val.str "12.6 L"))])
      ("Haemoglobin" ++ "_Flag") = some (Val.str "LOW") := by
  have h := (c8_embedded_flag_split).1 [("Haemoglobin", some (Val.str "12.6 L"))]
    "Haemoglobin" "12.6 L" "12.6" "L" "LOW" (63/5)
    (by decide) rfl (by decide) (by decide) (by decide) (by decide) rfl
    (by with_unfolding_all rfl) (Or.inl ⟨Or.inl rfl, rfl⟩)
  exact ⟨h.1, h.2 (by decide) rfl⟩


/-! ## C1 — Phase-1 regex routing and the strict handoff -/


/-- Phase-1 routing never changes a page's number. -/
theorem phase1Page_pageNumber (pat : Dict) (p : Page) :
    ((phase1Page pat p).2.1).pageNumber = p.pageNumber := by
  unfold phase1Page addHandler
  dsimp only
  repeat' (first | split | dsimp only)

/-- Branch C of `_process_single_file` Phase 1 at match count ≥ 3. -/
theorem phase1Page_text_ge3 (pat : Dict) (p : Page)
    (hg : p.isGraphPage = false) (hm : ¬ p.mode = "ocr")
    (h3 : countRegexFields (extractWithRegex p.rawText.data) ≥ 3) :
    phase1Page pat p =
      (mergeIntoPatient pat (extractWithRegex p.rawText.data),
       addHandler p "REGEX_HANDLED", none) := by
  unfold phase1Page
  dsimp only
  rw [hg, if_neg (show ¬(false = true) by decide), if_neg hm, if_pos h3]

/-- Branch C at match count in `(0, 3)`. -/
theorem phase1Page_text_mid (pat : Dict) (p : Page)
    (hg : p.isGraphPage = false) (hm : ¬ p.mode = "ocr")
    (hne : p.rawText ≠ "")
    (hpos : countRegexFields (extractWithRegex p.rawText.data) > 0)
    (hlt : countRegexFields (extractWithRegex p.rawText.data) < 3) :
    phase1Page pat p =
      (mergeIntoPatient pat (extractWithRegex p.rawText.data),
       p, some "text") := by
  unfold phase1Page
  dsimp only
  rw [hg, if_neg (show ¬(false = true) by decide), if_neg hm,
    if_neg (not_le.mpr hlt), if_pos hpos, if_pos hne]

/-- Branch C at match count 0. -/
theorem phase1Page_text_zero (pat : Dict) (p : Page)
    (hg : p.isGraphPage = false) (hm : ¬ p.mode = "ocr")
    (hne : p.rawText ≠ "")
    (h0 : countRegexFields (extractWithRegex p.rawText.data) = 0) :
    phase1Page pat p = (pat, p, some "text") := by
  unfold phase1Page
  dsimp only
  rw [hg, if_neg (show ¬(false = true) by decide), if_neg hm, h0,
    if_neg (show ¬((0 : Nat) ≥ 3) by decide),
    if_neg (show ¬((0 : Nat) > 0) by decide), if_pos hne]

/-- Branch B (usable-OCR pages) at match count ≥ 3. -/
theorem phase1Page_ocr_ge3 (pat : Dict) (p : Page)
    (hg : p.isGraphPage = false) (hm : p.mode = "ocr")
    (ho : p.ocrText ≠ "") (ha : p.ocrAboveThreshold = true)
    (h3 : countRegexFields (extractWithRegex p.ocrText.data) ≥ 3) :
    phase1Page pat p =
      (mergeIntoPatient pat (extractWithRegex p.ocrText.data),
       addHandler p "OCR_HANDLED", none) := by
  unfold phase1Page
  dsimp only
  rw [hg, if_neg (show ¬(false = true) by decide), if_pos hm,
    if_pos (show p.ocrText ≠ "" ∧ p.ocrAboveThreshold = true from ⟨ho, ha⟩),
    if_pos h3]

/-- Branch B at match count in `(0, 3)` with an image available. -/
theorem phase1Page_ocr_mid (pat : Dict) (p : Page)
    (hg : p.isGraphPage = false) (hm : p.mode = "ocr")
    (ho : p.ocrText ≠ "") (ha : p.ocrAboveThreshold = true)
    (hi : p.hasImage = true)
    (hpos : countRegexFields (extractWithRegex p.ocrText.data) > 0)
    (hlt : countRegexFields (extractWithRegex p.ocrText.data) < 3) :
    phase1Page pat p =
      (mergeIntoPatient pat (extractWithRegex p.ocrText.data),
       p, some "image") := by
  unfold phase1Page
  dsimp only
  rw [hg, if_neg (show ¬(false = true) by decide), if_pos hm,
    if_pos (show p.ocrText ≠ "" ∧ p.ocrAboveThreshold = true from ⟨ho, ha⟩),
    if_neg (not_le.mpr hlt), if_pos hpos, hi, if_pos rfl]

/-- Branch B at match count 0 with an image available. -/
theorem phase1Page_ocr_zero (pat : Dict) (p : Page)
    (hg : p.isGraphPage = false) (hm : p.mode = "ocr")
    (ho : p.ocrText ≠ "") (ha : p.ocrAboveThreshold = true)
    (hi : p.hasImage = true)
    (h0 : countRegexFields (extractWithRegex p.ocrText.data) = 0) :
    phase1Page pat p = (pat, p, some "image") := by
  unfold phase1Page
  dsimp only
  rw [hg, if_neg (show ¬(false = true) by decide), if_pos hm,
    if_pos (show p.ocrText ≠ "" ∧ p.ocrAboveThreshold = true from ⟨ho, ha⟩), h0,
    if_neg (show ¬((0 : Nat) ≥ 3) by decide),
    if_neg (show ¬((0 : Nat) > 0) by decide), hi, if_pos rfl]

/-- Every `pending_ai` entry of the Phase-1 loop is the routed copy of some
input page that `phase1Page` queued. -/
theorem phase1_pending_source (pages : List Page) (patient : Dict)
    (e : Page × String) (he : e ∈ (phase1 patient pages).2.2) :
    ∃ p' ∈ pages, ∃ pat', (phase1Page pat' p').2.1 = e.1 ∧
      (phase1Page pat' p').2.2 = some e.2 := by
  induction pages generalizing patient with
  | nil => simp [phase1] at he
  | cons pg rest ih =>
    simp only [phase1] at he
    rcases List.mem_append.mp he with h1 | h2
    · cases hm : (phase1Page patient pg).2.2 with
      | none => rw [hm] at h1; simp at h1
      | some m =>
        rw [hm] at h1
        simp only [List.mem_singleton] at h1
        refine ⟨pg, List.mem_cons_self pg rest, patient, ?_, ?_⟩
        · rw [h1]
        · rw [hm, h1]
    · obtain ⟨p', hp', pat', hh⟩ := ih (phase1Page patient pg).1 h2
      exact ⟨p', List.mem_cons_of_mem pg hp', pat', hh⟩

/-- Every page of a built chunk is the page of some pending entry. -/
theorem buildChunks_pages_mem (pend : List (Page × String)) (a b : Nat)
    (ha : 0 < a) (hb : 0 < b) (c : List Page × String)
    (hc : c ∈ buildChunks pend a b) (pg : Page) (hpg : pg ∈ c.1) :
    ∃ e ∈ pend, e.1 = pg := by
  unfold buildChunks at hc
  rcases List.mem_append.mp hc with h | h
  · obtain ⟨cc, hcc, heq⟩ := List.mem_map.mp h
    have hc1 : c.1 = cc := by rw [← heq]
    have hmem : pg ∈ pend.filterMap
        (fun e => if e.2 = "image" then some e.1 else none) :=
      mem_of_mem_chunkEvery _ a ha cc hcc pg (hc1 ▸ hpg)
    obtain ⟨e, he, hfe⟩ := List.mem_filterMap.mp hmem
    refine ⟨e, he, ?_⟩
    by_cases h2 : e.2 = "image"
    · rw [if_pos h2] at hfe; exact Option.some.inj hfe
    · rw [if_neg h2] at hfe; cases hfe
  · obtain ⟨cc, hcc, heq⟩ := List.mem_map.mp h
    have hc1 : c.1 = cc := by rw [← heq]
    have hmem : pg ∈ pend.filterMap
        (fun e => if e.2 = "text" then some e.1 else none) :=
      mem_of_mem_chunkEvery _ b hb cc hcc pg (hc1 ▸ hpg)
    obtain ⟨e, he, hfe⟩ := List.mem_filterMap.mp hmem
    refine ⟨e, he, ?_⟩
    by_cases h2 : e.2 = "text"
    · rw [if_pos h2] at hfe; exact Option.some.inj hfe
    · rw [if_neg h2] at hfe; cases hfe

/-- A chunk that fired a remote call carries exactly its own pages. -/
theorem callChunk_pages_of_called (s : List String) (ai : Oracle)
    (pages : List Page) (m : String)
    (h : (callChunk s ai pages m).called = true) :
    (callChunk s ai pages m).pages = pages := by
  unfold callChunk at h ⊢
  dsimp only at h ⊢
  by_cases h1 : m = "image"
  · rw [if_pos h1] at h ⊢
    by_cases h2 : (pages.filter (·.hasImage)).isEmpty = true
    · rw [if_pos h2] at h; cases h
    · rw [if_neg h2]
  · rw [if_neg h1] at h ⊢
    by_cases h2 : (pruneNullFieldsForChunk s pages "text").isEmpty = true
    · rw [if_pos h2] at h; cases h
    · rw [if_neg h2]

theorem nodup_map_inj {α β : Type} {f : α → β} {l : List α}
    (h : (l.map f).Nodup) {x y : α} (hx : x ∈ l) (hy : y ∈ l)
    (hf : f x = f y) : x = y := by
  induction l with
  | nil => cases hx
  | cons a t ih =>
    rw [List.map_cons, List.nodup_cons] at h
    rcases List.mem_cons.mp hx with hx1 | hx2 <;>
      rcases List.mem_cons.mp hy with hy1 | hy2
    · rw [hx1, hy1]
    · exfalso
      apply h.1
      rw [hx1] at hf
      rw [hf]
      exact List.mem_map_of_mem f hy2
    · exfalso
      apply h.1
      rw [hy1] at hf
      rw [← hf]
      exact List.mem_map_of_mem f hx2
    · exact ih h.2 hx2 hy2

/-- C1: Phase-1 routing.  For a text page: regex match count ≥ 3 merges the
result, tags the page `REGEX_HANDLED`, and does not queue it; count in
`(0, 3)` merges the partial result and queues the page for remote text
extraction; count 0 queues the page whole with nothing merged.  For a
usable-OCR page (non-empty OCR text above the confidence threshold, image
available) the same trichotomy holds with `OCR_HANDLED` and image-mode
queueing.  Moreover, a page whose count is ≥ 3 never appears in any chunk
that fires a remote call. -/
theorem c1_regex_routing :
    (∀ (patient : Dict) (page : Page),
      page.isGraphPage = false → ¬ page.mode = "ocr" → page.rawText ≠ "" →
      ((countRegexFields (extractWithRegex page.rawText.data) ≥ 3 →
        phase1Page patient page =
          (mergeIntoPatient patient (extractWithRegex page.rawText.data),
           addHandler page "REGEX_HANDLED", none)) ∧
       (countRegexFields (extractWithRegex page.rawText.data) > 0 →
        countRegexFields (extractWithRegex page.rawText.data) < 3 →
        phase1Page patient page =
          (mergeIntoPatient patient (extractWithRegex page.rawText.data),
           page, some "text")) ∧
       (countRegexFields (extractWithRegex page.rawText.data) = 0 →
        phase1Page patient page = (patient, page, some "text")))) ∧
    (∀ (patient : Dict) (page : Page),
      page.isGraphPage = false → page.mode = "ocr" → page.ocrText ≠ "" →
      page.ocrAboveThreshold = true → page.hasImage = true →
      ((countRegexFields (extractWithRegex page.ocrText.data) ≥ 3 →
        phase1Page patient page =
          (mergeIntoPatient patient (extractWithRegex page.ocrText.data),
           addHandler page "OCR_HANDLED", none)) ∧
       (countRegexFields (extractWithRegex page.ocrText.data) > 0 →
        countRegexFields (extractWithRegex page.ocrText.data) < 3 →
        phase1Page patient page =
          (mergeIntoPatient patient (extractWithRegex page.ocrText.data),
           page, some "image")) ∧
       (countRegexFields (extractWithRegex page.ocrText.data) = 0 →
        phase1Page patient page = (patient, page, some "image")))) ∧
    (∀ (pages : List Page) (ai : Oracle) (p : Page),
      p ∈ pages → (pages.map Page.pageNumber).Nodup →
      ((p.isGraphPage = false ∧ ¬ p.mode = "ocr" ∧
        countRegexFields (extractWithRegex p.rawText.data) ≥ 3) ∨
       (p.isGraphPage = false ∧ p.mode = "ocr" ∧ p.ocrText ≠ "" ∧
        p.ocrAboveThreshold = true ∧
        countRegexFields (extractWithRegex p.ocrText.data) ≥ 3)) →
      p.pageNumber ∉ calledPageNumbers (processFile pages ai)) := by
  refine ⟨?_, ?_, ?_⟩
  · intro patient page hg hm hne
    exact ⟨phase1Page_text_ge3 patient page hg hm,
      phase1Page_text_mid patient page hg hm hne,
      phase1Page_text_zero patient page hg hm hne⟩
  · intro patient page hg hm ho ha hi
    exact ⟨phase1Page_ocr_ge3 patient page hg hm ho ha,
      phase1Page_ocr_mid patient page hg hm ho ha hi,
      phase1Page_ocr_zero patient page hg hm ho ha hi⟩
  · intro pages ai p hp hnodup hqual hmem
    unfold calledPageNumbers processFile at hmem
    dsimp only at hmem
    by_cases hsnap : (getNullFields (phase1 emptyPatient pages).1).isEmpty = true
    · rw [if_pos hsnap] at hmem
      simp only [show buildChunks [] IMAGE_CHUNK_SIZE TEXT_CHUNK_SIZE =
          ([] : List (List Page × String)) from rfl, List.map_nil,
        List.filter_nil, List.flatMap_nil] at hmem
      exact absurd hmem (List.not_mem_nil _)
    · rw [if_neg hsnap] at hmem
      obtain ⟨oc, hoc, hpn⟩ := List.mem_flatMap.mp hmem
      have hoc2 := List.mem_filter.mp hoc
      obtain ⟨c, hcm, hoceq⟩ := List.mem_map.mp hoc2.1
      have hcalled : (callChunk (getNullFields (phase1 emptyPatient pages).1)
          ai c.1 c.2).called = true := by
        rw [hoceq]; exact hoc2.2
      have hpages : oc.pages = c.1 := by
        rw [← hoceq]
        exact callChunk_pages_of_called _ ai c.1 c.2 hcalled
      obtain ⟨pg, hpg, hpgn⟩ := List.mem_map.mp hpn
      rw [hpages] at hpg
      obtain ⟨e, he, hepg⟩ :=
        buildChunks_pages_mem _ _ _ (by decide) (by decide) c hcm pg hpg
      obtain ⟨pp, hpp, pat', hq1, hq2⟩ :=
        phase1_pending_source pages emptyPatient e he
      have hnum : pp.pageNumber = p.pageNumber := by
        rw [← hpgn, ← hepg, ← hq1]
        exact (phase1Page_pageNumber pat' pp).symm
      have hppe : pp = p := nodup_map_inj hnodup hpp hp hnum
      rw [hppe] at hq2
      rcases hqual with ⟨hg, hm, h3⟩ | ⟨hg, hm, ho, ha, h3⟩
      · rw [phase1Page_text_ge3 pat' p hg hm h3] at hq2
        simp at hq2
      · rw [phase1Page_ocr_ge3 pat' p hg hm ho ha h3] at hq2
        simp at hq2

theorem c1_regex_routing_witness :
    phase1Page emptyPatient c1page =
      (mergeIntoPatient emptyPatient (extractWithRegex c1page.rawText.data),
       addHandler c1page "REGEX_HANDLED", none) ∧
    c1page.pageNumber ∉ calledPageNumbers (processFile [c1page] c1oracle) := by
  have hcount : countRegexFields (extractWithRegex c1page.rawText.data) = 3 := by
    with_unfolding_all rfl
  have h3 : countRegexFields (extractWithRegex c1page.rawText.data) ≥ 3 := by
    omega
  constructor
  · exact (c1_regex_routing.1 emptyPatient c1page rfl (by decide) (by decide)).1 h3
  · exact c1_regex_routing.2.2 [c1page] c1oracle c1page
      (List.mem_cons_self _ _) (by decide) (Or.inl ⟨rfl, by decide, h3⟩)


/-! ## C6 — handler assignments across the page lifetime -/

/-- A queued page's routed copy is the page itself and its queue mode is
`image` or `text`. -/
theorem phase1Page_queued (pat : Dict) (p : Page) (m : String) :
    (phase1Page pat p).2.2 = some m →
    (phase1Page pat p).2.1 = p ∧ (m = "image" ∨ m = "text") := by
  unfold phase1Page
  dsimp only
  repeat' (first | split | dsimp only)
  all_goals intro h
  all_goals first
    | exact Option.noConfusion h
    | exact ⟨rfl, Or.inl (Option.some.inj h).symm⟩
    | exact ⟨rfl, Or.inr (Option.some.inj h).symm⟩

/-- A page that Phase 1 did not queue leaves Phase 1 with a last handler
from the six-value handler set. -/
theorem phase1Page_not_queued_last (pat : Dict) (p : Page) :
    (phase1Page pat p).2.2 = none →
    ∃ s, ((phase1Page pat p).2.1).handlers.getLast? = some s ∧
      s ∈ ["GRAPH_PAGE", "REGEX_HANDLED", "OCR_HANDLED", "AI_HANDLED",
           "SKIPPED_NO_IMAGE", "SKIPPED_NO_NULLS"] := by
  unfold phase1Page addHandler
  dsimp only
  repeat' (first | split | dsimp only)
  all_goals intro h
  all_goals first
    | exact Option.noConfusion h
    | exact ⟨"GRAPH_PAGE", List.getLast?_concat _, by decide⟩
    | exact ⟨"REGEX_HANDLED", List.getLast?_concat _, by decide⟩
    | exact ⟨"OCR_HANDLED", List.getLast?_concat _, by decide⟩
    | exact ⟨"SKIPPED_NO_IMAGE", List.getLast?_concat _, by decide⟩
    | exact ⟨"SKIPPED_NO_NULLS", List.getLast?_concat _, by decide⟩

/-- Every Phase-1 output page is the routed copy of an input page, and if
that page was queued, the pair also sits on `pending_ai`. -/
theorem phase1_pages_source (pages : List Page) (patient : Dict)
    (p1 : Page) (hp1 : p1 ∈ (phase1 patient pages).2.1) :
    ∃ pat' p, p ∈ pages ∧ p1 = (phase1Page pat' p).2.1 ∧
      ((phase1Page pat' p).2.2 = none ∨
       ∃ m, (phase1Page pat' p).2.2 = some m ∧
         (p1, m) ∈ (phase1 patient pages).2.2) := by
  induction pages generalizing patient with
  | nil => simp [phase1] at hp1
  | cons pg rest ih =>
    simp only [phase1] at hp1 ⊢
    rcases List.mem_cons.mp hp1 with h1 | h2
    · refine ⟨patient, pg, List.mem_cons_self pg rest, h1, ?_⟩
      cases hm : (phase1Page patient pg).2.2 with
      | none => exact Or.inl rfl
      | some m =>
        refine Or.inr ⟨m, rfl, ?_⟩
        dsimp only
        exact List.mem_append_left _ (by rw [h1]; exact List.mem_singleton.mpr rfl)
    · obtain ⟨pat', p, hpmem, heq, hrest⟩ := ih (phase1Page patient pg).1 h2
      refine ⟨pat', p, List.mem_cons_of_mem pg hpmem, heq, ?_⟩
      rcases hrest with h | ⟨m, hm, hpend⟩
      · exact Or.inl h
      · exact Or.inr ⟨m, hm, List.mem_append_right _ hpend⟩

/-- The Step-4 merge loop's accumulated page list. -/
theorem foldl_mergeOutcome_pagesOut (ocs : List ChunkOutcome) (st : Phase2State) :
    (ocs.foldl mergeOutcome st).pagesOut =
      st.pagesOut ++
        ocs.flatMap (fun oc => oc.pages.map (addHandler · "AI_HANDLED")) := by
  induction ocs generalizing st with
  | nil => simp
  | cons oc t ih =>
    rw [List.foldl_cons, ih, List.flatMap_cons]
    unfold mergeOutcome
    dsimp only
    rw [List.append_assoc]

/-- `_call_chunk` keeps every chunk page (possibly re-tagged) in its
outcome, page numbers intact. -/
theorem callChunk_pages_numbers (s : List String) (ai : Oracle)
    (pages : List Page) (m : String) (pg : Page) (hpg : pg ∈ pages) :
    ∃ u ∈ (callChunk s ai pages m).pages, u.pageNumber = pg.pageNumber := by
  unfold callChunk
  dsimp only
  split_ifs with h1 h2 h3
  · exact ⟨addHandler pg "SKIPPED_NO_IMAGE", List.mem_map_of_mem _ hpg, rfl⟩
  · exact ⟨pg, hpg, rfl⟩
  · exact ⟨addHandler pg "SKIPPED_NO_NULLS", List.mem_map_of_mem _ hpg, rfl⟩
  · exact ⟨pg, hpg, rfl⟩

/-- A queued page always reappears (by page number) among the Step-4
re-tagged outcome pages of its chunk. -/
theorem pending_page_in_pagesOut (pend : List (Page × String))
    (snapshot : List String) (ai : Oracle) (p1 : Page) (m : String)
    (hpend : (p1, m) ∈ pend) (hmor : m = "image" ∨ m = "text") :
    ∃ w ∈ ((buildChunks pend IMAGE_CHUNK_SIZE TEXT_CHUNK_SIZE).map
        (fun c => callChunk snapshot ai c.1 c.2)).flatMap
        (fun oc => oc.pages.map (addHandler · "AI_HANDLED")),
      w.pageNumber = p1.pageNumber := by
  rcases hmor with hmd | hmd
  · have hp1i : p1 ∈ pend.filterMap
        (fun e => if e.2 = "image" then some e.1 else none) :=
      List.mem_filterMap.mpr ⟨(p1, m), hpend,
        by dsimp only; rw [hmd]; exact if_pos rfl⟩
    rw [← chunkEvery_flatten (pend.filterMap
      (fun e => if e.2 = "image" then some e.1 else none))
      IMAGE_CHUNK_SIZE (by decide)] at hp1i
    obtain ⟨c, hcmem, hp1c⟩ := List.mem_flatten.mp hp1i
    have hchunk : (c, "image") ∈
        buildChunks pend IMAGE_CHUNK_SIZE TEXT_CHUNK_SIZE := by
      unfold buildChunks
      exact List.mem_append_left _ (List.mem_map.mpr ⟨c, hcmem, rfl⟩)
    obtain ⟨u, hu, hunum⟩ := callChunk_pages_numbers snapshot ai c "image" p1 hp1c
    refine ⟨addHandler u "AI_HANDLED", ?_, hunum⟩
    exact List.mem_flatMap.mpr ⟨callChunk snapshot ai c "image",
      List.mem_map.mpr ⟨(c, "image"), hchunk, rfl⟩, List.mem_map_of_mem _ hu⟩
  · have hp1i : p1 ∈ pend.filterMap
        (fun e => if e.2 = "text" then some e.1 else none) :=
      List.mem_filterMap.mpr ⟨(p1, m), hpend,
        by dsimp only; rw [hmd]; exact if_pos rfl⟩
    rw [← chunkEvery_flatten (pend.filterMap
      (fun e => if e.2 = "text" then some e.1 else none))
      TEXT_CHUNK_SIZE (by decide)] at hp1i
    obtain ⟨c, hcmem, hp1c⟩ := List.mem_flatten.mp hp1i
    have hchunk : (c, "text") ∈
        buildChunks pend IMAGE_CHUNK_SIZE TEXT_CHUNK_SIZE := by
      unfold buildChunks
      exact List.mem_append_right _ (List.mem_map.mpr ⟨c, hcmem, rfl⟩)
    obtain ⟨u, hu, hunum⟩ := callChunk_pages_numbers snapshot ai c "text" p1 hp1c
    refine ⟨addHandler u "AI_HANDLED", ?_, hunum⟩
    exact List.mem_flatMap.mpr ⟨callChunk snapshot ai c "text",
      List.mem_map.mpr ⟨(c, "text"), hchunk, rfl⟩, List.mem_map_of_mem _ hu⟩

/-- Unfolding of the aliasing-based final page update. -/
theorem applyUpdates_cases (pages updated : List Page) (q : Page)
    (hq : q ∈ applyUpdates pages updated) :
    (∃ u ∈ updated, q = u) ∨
    (∃ p1 ∈ pages, q = p1 ∧
      updated.find? (fun u => u.pageNumber == p1.pageNumber) = none) := by
  unfold applyUpdates at hq
  obtain ⟨p1, hp1, hqeq⟩ := List.mem_map.mp hq
  cases hfind : updated.find? (fun u => u.pageNumber == p1.pageNumber) with
  | some u =>
    rw [hfind] at hqeq
    dsimp only at hqeq
    exact Or.inl ⟨u, List.mem_of_find?_eq_some hfind, hqeq.symm⟩
  | none =>
    rw [hfind] at hqeq
    dsimp only at hqeq
    exact Or.inr ⟨p1, hp1, hqeq.symm, hfind⟩

/-- C6 (amended): the `handler` attribute is NOT always assigned exactly
once (see the counterexample), but every page of a processed run that
either queued nothing or had null fields left after Phase 1 ends with at
least one handler assignment whose final value is one of GRAPH_PAGE,
REGEX_HANDLED, OCR_HANDLED, AI_HANDLED, SKIPPED_NO_IMAGE,
SKIPPED_NO_NULLS. -/
theorem c6_final_handler (pages : List Page) (ai : Oracle)
    (hsnap : (processFile pages ai).pending = [] ∨
      (processFile pages ai).snapshot ≠ [])
    (q : Page) (hq : q ∈ (processFile pages ai).pages) :
    ∃ s, q.handlers.getLast? = some s ∧
      s ∈ ["GRAPH_PAGE", "REGEX_HANDLED", "OCR_HANDLED", "AI_HANDLED",
           "SKIPPED_NO_IMAGE", "SKIPPED_NO_NULLS"] := by
  unfold processFile at hsnap hq
  dsimp only at hsnap hq
  rcases applyUpdates_cases _ _ q hq with ⟨u, humem, hqu⟩ | ⟨p1, hp1, hq1, hfind⟩
  · rw [foldl_mergeOutcome_pagesOut] at humem
    rcases List.mem_append.mp humem with h | h
    · exact absurd h (List.not_mem_nil u)
    · obtain ⟨oc, hoc, hum⟩ := List.mem_flatMap.mp h
      obtain ⟨v, hv, hveq⟩ := List.mem_map.mp hum
      refine ⟨"AI_HANDLED", ?_, by decide⟩
      rw [hqu, ← hveq]
      exact List.getLast?_concat _
  · obtain ⟨pat', p, hpmem, hpeq, hstat⟩ :=
      phase1_pages_source pages emptyPatient p1 hp1
    rcases hstat with hnone | ⟨m, hm, hpend⟩
    · obtain ⟨s, hlast, hset⟩ := phase1Page_not_queued_last pat' p hnone
      refine ⟨s, ?_, hset⟩
      rw [hq1, hpeq]
      exact hlast
    · exfalso
      rcases hsnap with hpemp | hsne
      · rw [hpemp] at hpend
        exact absurd hpend (List.not_mem_nil _)
      · have hie : (getNullFields (phase1 emptyPatient pages).1).isEmpty ≠ true := by
          intro hemp
          exact hsne (List.isEmpty_iff.mp hemp)
        rw [if_neg hie] at hfind
        obtain ⟨-, hmor⟩ := phase1Page_queued pat' p m hm
        obtain ⟨w, hw, hwnum⟩ := pending_page_in_pagesOut
          (phase1 emptyPatient pages).2.2
          (getNullFields (phase1 emptyPatient pages).1) ai p1 m hpend hmor
        refine List.find?_eq_none.mp hfind w ?_ ?_
        · rw [foldl_mergeOutcome_pagesOut]
          exact List.mem_append_right _ hw
        · show (w.pageNumber == p1.pageNumber) = true
          rw [hwnum]
          exact beq_self_eq_true _

/-- An OCR-classified page gets `handler` assigned twice: `CLAUDE_HANDLED`
at classification (outside the claimed six-value set) and a routing handler
in Phase 1. -/
theorem c6_single_assignment_cex :
    ((phase1Page emptyPatient
        (classifyPage 1 "scan" ⟨false, "", false⟩)).2.1).handlers =
      ["CLAUDE_HANDLED", "SKIPPED_NO_IMAGE"] := by
  with_unfolding_all rfl

theorem c6_final_handler_witness :
    ∃ s, (addHandler c6page "GRAPH_PAGE").handlers.getLast? = some s ∧
      s ∈ ["GRAPH_PAGE", "REGEX_HANDLED", "OCR_HANDLED", "AI_HANDLED",
           "SKIPPED_NO_IMAGE", "SKIPPED_NO_NULLS"] :=
  c6_final_handler [c6page] c1oracle (Or.inl (by with_unfolding_all rfl))
    (addHandler c6page "GRAPH_PAGE") (by with_unfolding_all decide)


end MedExtract
